import Mathlib

/-!
Verification of the monopoly-game engine against its specification.

This file gives a shallow embedding of the game's card subsystem
(translated from `src/server/game_engine/cards.py`) and of the game
state machine, board, and rule engine (the corresponding modules are
not part of the provided sources, so they are modelled from the
specification, as marked on each definition), and proves or refutes
the frozen claims about the program.

Python's `random.shuffle` is modelled by an explicit shuffle
parameter `sh : List Card → List Card`; the claims that depend on it
assume only that `sh` permutes its input, which is the defining
property of a shuffle.
-/

namespace Monopoly

/-- Card categories, from `shared.enums.CardType` (used by `cards.py`). -/
inductive CardType where
  | CHANCE
  | COMMUNITY_CHEST
deriving DecidableEq

/-- Types of actions a card can trigger, from `cards.py` (`CardAction`). -/
inductive CardAction where
  | COLLECT_MONEY
  | PAY_MONEY
  | COLLECT_FROM_PLAYERS
  | PAY_TO_PLAYERS
  | MOVE_TO
  | MOVE_FORWARD
  | MOVE_BACK
  | GO_TO_JAIL
  | GET_OUT_OF_JAIL
  | REPAIRS
deriving DecidableEq

/-- A Chance or Community Chest card, from `cards.py` (`Card`). -/
structure Card where
  card_type : CardType
  text_template : String
  action : CardAction
  value : Int := 0
  per_house : Int := 0
  per_hotel : Int := 0
  keep : Bool := false
deriving DecidableEq

/-- A deck of cards, from `cards.py` (`CardDeck`): a queue `cards` and a
discard pile `discard`.  (The `_initialized` bookkeeping flag of the
Python dataclass plays no role after construction and is omitted.) -/
structure CardDeck where
  card_type : CardType
  cards : List Card := []
  discard : List Card := []
deriving DecidableEq

/-- `CardDeck.draw` from `cards.py`: if the queue is empty, the shuffled
discard pile becomes the new queue and the discard pile is cleared; then
the front card is popped (`none` models the uncaught `IndexError` that
`self.cards.pop(0)` raises on an empty list); a non-keepable drawn card
is appended to the discard pile. -/
def CardDeck.draw (sh : List Card → List Card) (d : CardDeck) :
    Option (Card × CardDeck) :=
  let qd : List Card × List Card :=
    if d.cards.isEmpty then (sh d.discard, []) else (d.cards, d.discard)
  match qd.1 with
  | [] => none
  | card :: rest =>
      some (card,
        { d with
          cards := rest
          discard := if card.keep then qd.2 else qd.2 ++ [card] })

/-- `CardDeck.return_card` from `cards.py`: a kept card goes back onto
the discard pile. -/
def CardDeck.return_card (d : CardDeck) (c : Card) : CardDeck :=
  { d with discard := d.discard ++ [c] }

/-! ## Game model

The Game / Board / RuleEngine / Player / Dice modules of the repository
are not part of the provided sources (only their tests are), so the
following definitions are modelled from the specification, as marked. -/

/-- Modelled from the spec: space tags of the board
(`PROPERTY/RAILROAD/UTILITY/TAX/CARD/CORNER`, §4.2). -/
inductive SpaceType where
  | PROPERTY
  | RAILROAD
  | UTILITY
  | TAX
  | CARD
  | CORNER
deriving DecidableEq

/-- Modelled from the spec: player lifecycle states (§3). -/
inductive PlayerState where
  | ACTIVE
  | IN_JAIL
  | BANKRUPT
  | DISCONNECTED
deriving DecidableEq

/-- Modelled from the spec: the turn/phase state machine's states (§4.5). -/
inductive GamePhase where
  | WAITING
  | PRE_ROLL
  | PROPERTY_DECISION
  | PAYING_RENT
  | POST_ROLL
  | GAME_OVER
deriving DecidableEq

/-- Modelled from the spec: tagged outcomes of the rule validators (§7). -/
inductive ActionResult where
  | OK
  | WRONG_PHASE
  | WRONG_PLAYER
  | INVALID_PLAYER
  | NOT_OWNER
  | INSUFFICIENT_FUNDS
  | HAS_BUILDINGS
  | UNEVEN_BUILDING
  | NO_MONOPOLY
  | PROPERTY_MORTGAGED
  | NO_BUILDINGS_AVAILABLE
  | MAX_DEVELOPMENT
  | INVALID_PROPERTY
  | INVALID_TRADE
  | NOT_IN_JAIL
deriving DecidableEq

/-- Modelled from the spec: a board space with its static attributes and
its mutable ownership/building/mortgage state (§3, §4.2).  `rentTable`
is indexed by the development level (0–4 houses, 5 = hotel); `cardType`
says which deck a CARD space draws from. -/
structure Space where
  spaceType : SpaceType
  group : Nat := 0
  price : Nat := 0
  rentTable : List Nat := []
  houseCost : Nat := 0
  taxAmount : Nat := 0
  cardType : CardType := CardType.CHANCE
  owner : Option Nat := none
  houses : Nat := 0
  hotel : Bool := false
  mortgaged : Bool := false
deriving DecidableEq

/-- Modelled from the spec: the board is the ordered list of spaces;
a position is an index into it (§4.2). -/
abbrev Board := List Space

/-- Modelled from the spec: per-participant mutable state (§3). -/
structure Player where
  id : Nat
  name : String := ""
  cash : Int := 0
  position : Nat := 0
  state : PlayerState := PlayerState.ACTIVE
  properties : List Nat := []
  jailCards : Nat := 0
  jailTurns : Nat := 0
  consecutiveDoubles : Nat := 0
  hasRolled : Bool := false
deriving DecidableEq

/-- Modelled from the spec: the bank's total house supply (§3, §8);
the standard supply of 32 is used by the tests' `TOTAL_HOUSES`. -/
def TOTAL_HOUSES : Nat := 32

/-- Modelled from the spec: the bank's total hotel supply (§3, §8). -/
def TOTAL_HOTELS : Nat := 12

/-- Modelled from the spec: the fixed jail position constant (§6);
the standard board's value. -/
def JAIL_POSITION : Nat := 10

/-- Modelled from the spec: the fixed go-to-jail corner position (§4.5);
the standard board's value. -/
def GO_TO_JAIL_POSITION : Nat := 30

/-- Modelled from the spec: salary for crossing/landing on start (§4.5). -/
def SALARY_AMOUNT : Int := 200

/-- Modelled from the spec: bail cost (§6); the standard value. -/
def BAIL_AMOUNT : Int := 50

/-- Modelled from the spec: the configured maximum of jail turns (§4.5). -/
def MAX_JAIL_TURNS : Nat := 3

/-- Modelled from the spec: bound on the length of card-triggered
recursive landing chains (§5 requires them to run to completion; the
bound makes the recursion well-founded in the model). -/
def CARD_CHAIN_BOUND : Nat := 16

/-- A sample non-keepable card, for concrete evaluations. -/
def payCard : Card :=
  { card_type := CardType.CHANCE
    text_template := "Pay fine."
    action := CardAction.PAY_MONEY
    value := 75 }

/-- A sample keepable escape card, for concrete evaluations. -/
def jailFreeCard : Card :=
  { card_type := CardType.CHANCE
    text_template := "Get Out of Jail Free."
    action := CardAction.GET_OUT_OF_JAIL
    keep := true }

/-- Modelled from the spec: look up the space at a board position;
`none` for an out-of-range position. -/
def getSpace (b : Board) (pos : Nat) : Option Space := b[pos]?

/-- Modelled from the spec: a space's development level, 0–4 houses or
5 for a hotel (§4.2). -/
def Space.level (s : Space) : Nat := if s.hotel then 5 else s.houses

/-- Modelled from the spec: whether a space carries any buildings. -/
def Space.has_buildings (s : Space) : Bool := s.hotel || s.houses != 0

/-- Modelled from the spec: how many spaces of a given type a player
owns; ownership counts even if mortgaged (§4.2). -/
def countOwnedOfType (b : Board) (t : SpaceType) (pid : Nat) : Nat :=
  b.countP (fun s => s.spaceType == t && s.owner == some pid)

/-- `player_has_monopoly` modelled from the spec: true iff every
property of the group is owned by the player, mortgaged or not (§4.2). -/
def player_has_monopoly (b : Board) (pid : Nat) (grp : Nat) : Bool :=
  (b.filter (fun s => s.group == grp)).all (fun s => s.owner == some pid)

/-- Modelled from the spec: the PROPERTY spaces of a color group. -/
def groupSpaces (b : Board) (grp : Nat) : List Space :=
  b.filter (fun s => s.group == grp && s.spaceType == SpaceType.PROPERTY)

/-- Modelled from the spec: minimum house count in a group (used by the
even-building rule, §4.4); `dflt` seeds the fold and is in practice the
target property's own count, which belongs to the group. -/
def groupMinHouses (b : Board) (grp : Nat) (dflt : Nat) : Nat :=
  ((groupSpaces b grp).map Space.houses).foldr Nat.min dflt

/-- Modelled from the spec: maximum house count in a group (used by the
even-selling rule, §4.4). -/
def groupMaxHouses (b : Board) (grp : Nat) : Nat :=
  ((groupSpaces b grp).map Space.houses).foldr Nat.max 0

/-- Modelled from the spec: every property of the group has exactly 4
houses (precondition of building a hotel, §4.4). -/
def groupAllFourHouses (b : Board) (grp : Nat) : Bool :=
  (groupSpaces b grp).all (fun s => s.houses == 4)

/-- Modelled from the spec: some property of the group is mortgaged
(which forbids building in the group, §4.4). -/
def groupAnyMortgaged (b : Board) (grp : Nat) : Bool :=
  (groupSpaces b grp).any (fun s => s.mortgaged)

/-- `calculate_rent` modelled from the spec (§4.2): unowned or
owner-landing ⇒ 0; mortgaged ⇒ 0; PROPERTY: rent-table entry at the
development level, doubled on a monopoly at level 0; RAILROAD:
`25 * 2^(k-1)` for `k` railroads owned by that owner; UTILITY: dice
total times 4 (one owned) or 10 (two owned). -/
def calculate_rent (b : Board) (pos : Nat) (dice_roll : Nat)
    (landing_player_id : Nat) : Nat :=
  match getSpace b pos with
  | none => 0
  | some s =>
    match s.owner with
    | none => 0
    | some o =>
      if o = landing_player_id then 0
      else if s.mortgaged then 0
      else
        match s.spaceType with
        | SpaceType.PROPERTY =>
            let base := s.rentTable.getD s.level 0
            if player_has_monopoly b o s.group && s.houses == 0 && !s.hotel
            then 2 * base else base
        | SpaceType.RAILROAD =>
            25 * 2 ^ (countOwnedOfType b SpaceType.RAILROAD o - 1)
        | SpaceType.UTILITY =>
            dice_roll *
              (if countOwnedOfType b SpaceType.UTILITY o = 1 then 4 else 10)
        | _ => 0

/-- Modelled from the spec: forward scan with wraparound to the nearest
space of the given type (§4.4); returns the starting position if the
board has no such space. -/
def get_nearest_space (b : Board) (t : SpaceType) (pos : Nat) : Nat :=
  let n := b.length
  match (List.range n).find? (fun k =>
      match b[(pos + 1 + k) % n]? with
      | some s => s.spaceType == t
      | none => false) with
  | some k => (pos + 1 + k) % n
  | none => pos

/-- `get_nearest_railroad` modelled from the spec (§4.4). -/
def get_nearest_railroad (b : Board) (pos : Nat) : Nat :=
  get_nearest_space b SpaceType.RAILROAD pos

/-- `get_nearest_utility` modelled from the spec (§4.4). -/
def get_nearest_utility (b : Board) (pos : Nat) : Nat :=
  get_nearest_space b SpaceType.UTILITY pos

/-- Modelled from the spec: result of a rule validator — ok flag,
result kind, human message (§4.4, §7). -/
structure ValidationResult where
  valid : Bool
  result : ActionResult
  message : String := ""
deriving DecidableEq

/-- `validate_build_house` modelled from the spec (§4.4), checks in the
spec's order: ownership; full monopoly; type PROPERTY; no mortgaged
group member; even-building (the post-build count may not exceed the
group minimum by more than 1, i.e. the current count may not exceed the
group minimum); development may not exceed hotel; bank inventory;
affordability of the house cost. -/
def validate_build_house (b : Board) (p : Player) (pos : Nat)
    (housesAvailable : Nat) : ValidationResult :=
  match getSpace b pos with
  | none => ⟨false, ActionResult.INVALID_PROPERTY, "No such property"⟩
  | some s =>
    if s.owner ≠ some p.id then
      ⟨false, ActionResult.NOT_OWNER, "You do not own this property"⟩
    else if !player_has_monopoly b p.id s.group then
      ⟨false, ActionResult.NO_MONOPOLY, "You need the full color group"⟩
    else if s.spaceType ≠ SpaceType.PROPERTY then
      ⟨false, ActionResult.INVALID_PROPERTY, "Cannot build here"⟩
    else if groupAnyMortgaged b s.group then
      ⟨false, ActionResult.PROPERTY_MORTGAGED, "A group member is mortgaged"⟩
    else if s.houses > groupMinHouses b s.group s.houses then
      ⟨false, ActionResult.UNEVEN_BUILDING, "Build evenly across the group"⟩
    else if s.hotel || s.houses ≥ 4 then
      ⟨false, ActionResult.MAX_DEVELOPMENT, "Already fully developed"⟩
    else if housesAvailable = 0 then
      ⟨false, ActionResult.NO_BUILDINGS_AVAILABLE, "No houses left in the bank"⟩
    else if p.cash < (s.houseCost : Int) then
      ⟨false, ActionResult.INSUFFICIENT_FUNDS, "Cannot afford a house"⟩
    else ⟨true, ActionResult.OK, "OK"⟩

/-- `validate_build_hotel` modelled from the spec (§4.4): as for houses,
with the even-building requirement that every group member holds exactly
4 houses, and hotel inventory instead of house inventory. -/
def validate_build_hotel (b : Board) (p : Player) (pos : Nat)
    (hotelsAvailable : Nat) : ValidationResult :=
  match getSpace b pos with
  | none => ⟨false, ActionResult.INVALID_PROPERTY, "No such property"⟩
  | some s =>
    if s.owner ≠ some p.id then
      ⟨false, ActionResult.NOT_OWNER, "You do not own this property"⟩
    else if !player_has_monopoly b p.id s.group then
      ⟨false, ActionResult.NO_MONOPOLY, "You need the full color group"⟩
    else if s.spaceType ≠ SpaceType.PROPERTY then
      ⟨false, ActionResult.INVALID_PROPERTY, "Cannot build here"⟩
    else if groupAnyMortgaged b s.group then
      ⟨false, ActionResult.PROPERTY_MORTGAGED, "A group member is mortgaged"⟩
    else if !groupAllFourHouses b s.group then
      ⟨false, ActionResult.UNEVEN_BUILDING, "All group members need 4 houses"⟩
    else if s.hotel then
      ⟨false, ActionResult.MAX_DEVELOPMENT, "Already has a hotel"⟩
    else if hotelsAvailable = 0 then
      ⟨false, ActionResult.NO_BUILDINGS_AVAILABLE, "No hotels left in the bank"⟩
    else if p.cash < (s.houseCost : Int) then
      ⟨false, ActionResult.INSUFFICIENT_FUNDS, "Cannot afford a hotel"⟩
    else ⟨true, ActionResult.OK, "OK"⟩

/-- `validate_sell_building` modelled from the spec (§4.4): symmetric
even-selling — houses may only be sold from a property holding the
group's maximum house count; downgrading a hotel needs 4 bank houses. -/
def validate_sell_building (b : Board) (p : Player) (pos : Nat)
    (housesAvailable : Nat) : ValidationResult :=
  match getSpace b pos with
  | none => ⟨false, ActionResult.INVALID_PROPERTY, "No such property"⟩
  | some s =>
    if s.owner ≠ some p.id then
      ⟨false, ActionResult.NOT_OWNER, "You do not own this property"⟩
    else if s.spaceType ≠ SpaceType.PROPERTY then
      ⟨false, ActionResult.INVALID_PROPERTY, "Nothing to sell here"⟩
    else if !s.hotel && s.houses = 0 then
      ⟨false, ActionResult.INVALID_PROPERTY, "No buildings to sell"⟩
    else if !s.hotel && s.houses < groupMaxHouses b s.group then
      ⟨false, ActionResult.UNEVEN_BUILDING, "Sell evenly across the group"⟩
    else if s.hotel && housesAvailable < 4 then
      ⟨false, ActionResult.NO_BUILDINGS_AVAILABLE,
        "The bank lacks houses for the downgrade"⟩
    else ⟨true, ActionResult.OK, "OK"⟩

/-- `validate_trade` modelled from the spec (§4.4): all-or-nothing —
every offered property owned by the offerer and building-free, every
requested property owned by the other party and building-free, money
and escape cards within each side's holdings, and an entirely empty
offer is invalid.  Mortgaged properties may be traded. -/
def validate_trade (b : Board) (fromP toP : Player)
    (offered_money requested_money : Nat)
    (offered_properties requested_properties : List Nat)
    (offered_cards requested_cards : Nat) : ValidationResult :=
  if offered_money = 0 && requested_money = 0 &&
     offered_properties.isEmpty && requested_properties.isEmpty &&
     offered_cards = 0 && requested_cards = 0 then
    ⟨false, ActionResult.INVALID_TRADE, "Empty trade"⟩
  else if !offered_properties.all (fun pos =>
      match getSpace b pos with
      | some s => s.owner == some fromP.id && !s.has_buildings
      | none => false) then
    ⟨false, ActionResult.INVALID_TRADE, "Bad offered properties"⟩
  else if !requested_properties.all (fun pos =>
      match getSpace b pos with
      | some s => s.owner == some toP.id && !s.has_buildings
      | none => false) then
    ⟨false, ActionResult.INVALID_TRADE, "Bad requested properties"⟩
  else if fromP.cash < (offered_money : Int) ||
      fromP.jailCards < offered_cards then
    ⟨false, ActionResult.INSUFFICIENT_FUNDS, "Offer exceeds holdings"⟩
  else if toP.cash < (requested_money : Int) ||
      toP.jailCards < requested_cards then
    ⟨false, ActionResult.INSUFFICIENT_FUNDS, "Request exceeds holdings"⟩
  else ⟨true, ActionResult.OK, "OK"⟩

/-- Modelled from the spec: result of one dice roll (§4.1). -/
structure DiceResult where
  die1 : Nat
  die2 : Nat
deriving DecidableEq

/-- Modelled from the spec: the dice total (§4.1). -/
def DiceResult.total (d : DiceResult) : Nat := d.die1 + d.die2

/-- Modelled from the spec: the whole game state (§3): players, fixed
turn order, board, the two decks, phase, current player index, turn
counter, last dice result, winner, and the bank's finite building
inventory. -/
structure Game where
  players : List Player := []
  player_order : List Nat := []
  board : Board := []
  chanceDeck : CardDeck := { card_type := CardType.CHANCE }
  chestDeck : CardDeck := { card_type := CardType.COMMUNITY_CHEST }
  phase : GamePhase := GamePhase.WAITING
  currentIndex : Nat := 0
  turnCount : Nat := 0
  lastDice : Option DiceResult := none
  winner : Option Nat := none
  housesAvailable : Nat := TOTAL_HOUSES
  hotelsAvailable : Nat := TOTAL_HOTELS
deriving DecidableEq

/-- Modelled from the spec: result of a public game operation —
success flag and human message (§6). -/
structure GResult where
  success : Bool
  message : String
deriving DecidableEq

/-- A rejected action: the state is returned untouched (§7). -/
def reject (g : Game) (m : String) : Game × GResult := (g, ⟨false, m⟩)

/-- A successful action with its mutated state. -/
def accept (g : Game) (m : String) : Game × GResult := (g, ⟨true, m⟩)

/-- Modelled from the spec: look up a player by id. -/
def lookupPlayer (g : Game) (pid : Nat) : Option Player :=
  g.players.find? (fun q => q.id == pid)

/-- Modelled from the spec: the id of the player whose turn it is. -/
def currentPlayerId (g : Game) : Nat :=
  g.player_order.getD g.currentIndex 0

/-- Apply a function to the player with the given id. -/
def updatePlayer (g : Game) (pid : Nat) (f : Player → Player) : Game :=
  { g with players := g.players.map (fun q => if q.id == pid then f q else q) }

/-- Apply a function to the space at the given position. -/
def updateSpace (g : Game) (pos : Nat) (f : Space → Space) : Game :=
  { g with board :=
      match g.board[pos]? with
      | none => g.board
      | some s => g.board.set pos (f s) }

/-- Modelled from the spec: send a player to jail — state `IN_JAIL`,
position the jail position, jail-turn and doubles counters reset (§4.5). -/
def Player.send_to_jail (p : Player) : Player :=
  { p with
    state := PlayerState.IN_JAIL
    position := JAIL_POSITION
    jailTurns := 0
    consecutiveDoubles := 0 }

/-- Modelled from the spec (§9, turn-order design note): the next index
in the fixed order, wrapping and skipping `BANKRUPT` players. -/
def nextEligibleIndex (g : Game) : Nat :=
  let n := g.player_order.length
  match (List.range n).find? (fun k =>
      match lookupPlayer g (g.player_order.getD ((g.currentIndex + 1 + k) % n) 0) with
      | some q => q.state != PlayerState.BANKRUPT
      | none => false) with
  | some k => (g.currentIndex + 1 + k) % n
  | none => g.currentIndex

/-- Modelled from the spec: total repair surcharge over the drawing
player's owned properties (§4.3, REPAIRS). -/
def repairCost (b : Board) (pid : Nat) (per_house per_hotel : Int) : Int :=
  ((b.filter (fun s => s.owner == some pid)).map
    (fun s => per_house * (s.houses : Int) + if s.hotel then per_hotel else 0)).sum

/-- Replace the deck a CARD space draws from. -/
def setDeck (g : Game) (t : CardType) (d : CardDeck) : Game :=
  match t with
  | CardType.CHANCE => { g with chanceDeck := d }
  | CardType.COMMUNITY_CHEST => { g with chestDeck := d }

/-- The deck a CARD space draws from. -/
def getDeck (g : Game) (t : CardType) : CardDeck :=
  match t with
  | CardType.CHANCE => g.chanceDeck
  | CardType.COMMUNITY_CHEST => g.chestDeck

mutual

/-- Modelled from the spec: resolve the landing space after a move
(§4.5): go-to-jail corner sends to jail skipping rent/purchase; TAX
deducts or, if unaffordable, phase `PAYING_RENT`; CARD draws and applies
an effect (which may move the player and recursively resolve the new
space — `fuel` bounds the chain); unowned purchasable space sets phase
`PROPERTY_DECISION`; owned-by-other attempts the rent transfer
(insufficient funds ⇒ `PAYING_RENT`); otherwise phase `POST_ROLL`. -/
def resolveLanding (sh : List Card → List Card) (fuel : Nat) (g : Game)
    (pid : Nat) (diceTotal : Nat) : Game :=
  match fuel with
  | 0 => { g with phase := GamePhase.POST_ROLL }
  | fuel + 1 =>
    match lookupPlayer g pid with
    | none => { g with phase := GamePhase.POST_ROLL }
    | some p =>
      if p.position = GO_TO_JAIL_POSITION then
        { updatePlayer g pid Player.send_to_jail with phase := GamePhase.POST_ROLL }
      else
        match getSpace g.board p.position with
        | none => { g with phase := GamePhase.POST_ROLL }
        | some s =>
          match s.spaceType with
          | SpaceType.TAX =>
              if (s.taxAmount : Int) ≤ p.cash then
                { updatePlayer g pid
                    (fun q => { q with cash := q.cash - (s.taxAmount : Int) })
                  with phase := GamePhase.POST_ROLL }
              else { g with phase := GamePhase.PAYING_RENT }
          | SpaceType.CARD =>
              match CardDeck.draw sh (getDeck g s.cardType) with
              | none => { g with phase := GamePhase.POST_ROLL }
              | some (card, deck) =>
                  applyCardEffect sh fuel (setDeck g s.cardType deck) card pid diceTotal
          | SpaceType.CORNER => { g with phase := GamePhase.POST_ROLL }
          | _ =>
              match s.owner with
              | none => { g with phase := GamePhase.PROPERTY_DECISION }
              | some o =>
                if o = pid then { g with phase := GamePhase.POST_ROLL }
                else
                  let rent := calculate_rent g.board p.position diceTotal pid
                  if (rent : Int) ≤ p.cash then
                    { updatePlayer
                        (updatePlayer g pid
                          (fun q => { q with cash := q.cash - (rent : Int) }))
                        o (fun q => { q with cash := q.cash + (rent : Int) })
                      with phase := GamePhase.POST_ROLL }
                  else { g with phase := GamePhase.PAYING_RENT }

/-- Modelled from the spec: apply a drawn card's tagged effect (§4.3):
money collection/payment (with the bank or with every other player),
absolute and relative movement (with the nearest-railroad/utility
sentinels −2/−1 used by the source's card list, salary on passing GO,
and recursive resolution of the new space), go-to-jail, keepable escape
card, and per-building repairs. -/
def applyCardEffect (sh : List Card → List Card) (fuel : Nat) (g : Game)
    (card : Card) (pid : Nat) (diceTotal : Nat) : Game :=
  match fuel with
  | 0 => { g with phase := GamePhase.POST_ROLL }
  | fuel + 1 =>
    match lookupPlayer g pid with
    | none => { g with phase := GamePhase.POST_ROLL }
    | some p =>
      match card.action with
      | CardAction.COLLECT_MONEY =>
          { updatePlayer g pid (fun q => { q with cash := q.cash + card.value })
            with phase := GamePhase.POST_ROLL }
      | CardAction.PAY_MONEY =>
          if card.value ≤ p.cash then
            { updatePlayer g pid (fun q => { q with cash := q.cash - card.value })
              with phase := GamePhase.POST_ROLL }
          else { g with phase := GamePhase.PAYING_RENT }
      | CardAction.COLLECT_FROM_PLAYERS =>
          let others := g.players.countP
            (fun q => q.id != pid && q.state != PlayerState.BANKRUPT)
          { updatePlayer
              { g with players := g.players.map (fun q =>
                  if q.id != pid && q.state != PlayerState.BANKRUPT then
                    { q with cash := q.cash - card.value } else q) }
              pid (fun q => { q with cash := q.cash + card.value * others })
            with phase := GamePhase.POST_ROLL }
      | CardAction.PAY_TO_PLAYERS =>
          let others := g.players.countP
            (fun q => q.id != pid && q.state != PlayerState.BANKRUPT)
          { updatePlayer
              { g with players := g.players.map (fun q =>
                  if q.id != pid && q.state != PlayerState.BANKRUPT then
                    { q with cash := q.cash + card.value } else q) }
              pid (fun q => { q with cash := q.cash - card.value * others })
            with phase := GamePhase.POST_ROLL }
      | CardAction.MOVE_TO =>
          let target : Nat :=
            if card.value = -2 then get_nearest_railroad g.board p.position
            else if card.value = -1 then get_nearest_utility g.board p.position
            else card.value.toNat
          let salary : Int := if target < p.position then SALARY_AMOUNT else 0
          resolveLanding sh fuel
            (updatePlayer g pid
              (fun q => { q with position := target, cash := q.cash + salary }))
            pid diceTotal
      | CardAction.MOVE_FORWARD =>
          let n := g.board.length
          let v := card.value.toNat
          let newPos := (p.position + v) % n
          let salary : Int :=
            if n ≤ p.position + v && v != 0 then SALARY_AMOUNT else 0
          resolveLanding sh fuel
            (updatePlayer g pid
              (fun q => { q with position := newPos, cash := q.cash + salary }))
            pid diceTotal
      | CardAction.MOVE_BACK =>
          let n := g.board.length
          let v := card.value.toNat
          let newPos := (p.position + n - v % n) % n
          resolveLanding sh fuel
            (updatePlayer g pid (fun q => { q with position := newPos }))
            pid diceTotal
      | CardAction.GO_TO_JAIL =>
          { updatePlayer g pid Player.send_to_jail with phase := GamePhase.POST_ROLL }
      | CardAction.GET_OUT_OF_JAIL =>
          { updatePlayer g pid (fun q => { q with jailCards := q.jailCards + 1 })
            with phase := GamePhase.POST_ROLL }
      | CardAction.REPAIRS =>
          let cost := repairCost g.board pid card.per_house card.per_hotel
          if cost ≤ p.cash then
            { updatePlayer g pid (fun q => { q with cash := q.cash - cost })
              with phase := GamePhase.POST_ROLL }
          else { g with phase := GamePhase.PAYING_RENT }

end

/-- `roll_dice` modelled from the spec (§4.5).  The dice values are
inputs of the model (the seedable roller is external randomness).  Only
the current player, only in `PRE_ROLL`.  In jail: doubles release and
move with no bonus roll; a non-double increments the jail counter, and
at the configured maximum forces bail if affordable, else phase
`PAYING_RENT`.  Otherwise the doubles counter is maintained, a third
consecutive double sends the player directly to jail with no landing
processing and phase `POST_ROLL`, and any other roll moves the player
(wrapping, with salary on crossing start) and resolves the landing. -/
def roll_dice (sh : List Card → List Card) (g : Game) (pid : Nat)
    (d1 d2 : Nat) : Game × GResult :=
  match lookupPlayer g pid with
  | none => reject g "Unknown player"
  | some p =>
    if pid ≠ currentPlayerId g then reject g "Not your turn"
    else if g.phase ≠ GamePhase.PRE_ROLL then reject g "Cannot roll now"
    else if p.state = PlayerState.BANKRUPT ∨ p.state = PlayerState.DISCONNECTED then
      reject g "Player cannot act"
    else
      let g1 := { g with lastDice := some ⟨d1, d2⟩ }
      let n := g.board.length
      let total := d1 + d2
      let newPos := (p.position + total) % n
      let salary : Int := if n ≤ p.position + total then SALARY_AMOUNT else 0
      if p.state = PlayerState.IN_JAIL then
        if d1 = d2 then
          accept
            (resolveLanding sh CARD_CHAIN_BOUND
              (updatePlayer g1 pid (fun q =>
                { q with
                  state := PlayerState.ACTIVE
                  jailTurns := 0
                  consecutiveDoubles := 0
                  hasRolled := true
                  position := newPos
                  cash := q.cash + salary }))
              pid total)
            "Doubles: released from jail"
        else
          if MAX_JAIL_TURNS ≤ p.jailTurns + 1 then
            if BAIL_AMOUNT ≤ p.cash then
              accept
                (resolveLanding sh CARD_CHAIN_BOUND
                  (updatePlayer g1 pid (fun q =>
                    { q with
                      state := PlayerState.ACTIVE
                      jailTurns := 0
                      hasRolled := true
                      position := newPos
                      cash := q.cash + salary - BAIL_AMOUNT }))
                  pid total)
                "Forced bail paid"
            else
              accept
                { updatePlayer g1 pid (fun q =>
                    { q with jailTurns := q.jailTurns + 1, hasRolled := true })
                  with phase := GamePhase.PAYING_RENT }
                "Cannot afford bail"
          else
            accept
              { updatePlayer g1 pid (fun q =>
                  { q with jailTurns := q.jailTurns + 1, hasRolled := true })
                with phase := GamePhase.POST_ROLL }
              "Still in jail"
      else
        let cd := if d1 = d2 then p.consecutiveDoubles + 1 else 0
        if 3 ≤ cd then
          accept
            { updatePlayer g1 pid
                (fun q => Player.send_to_jail { q with hasRolled := true })
              with phase := GamePhase.POST_ROLL }
            "Three doubles: go to jail"
        else
          accept
            (resolveLanding sh CARD_CHAIN_BOUND
              (updatePlayer g1 pid (fun q =>
                { q with
                  position := newPos
                  cash := q.cash + salary
                  consecutiveDoubles := cd
                  hasRolled := true }))
              pid total)
            "Rolled"

/-- `buy_property` modelled from the spec (§4.5): only the current
player, only in `PROPERTY_DECISION`; deducts the price, assigns
ownership, and moves the phase to `POST_ROLL`. -/
def buy_property (g : Game) (pid : Nat) : Game × GResult :=
  match lookupPlayer g pid with
  | none => reject g "Unknown player"
  | some p =>
    if pid ≠ currentPlayerId g then reject g "Not your turn"
    else if g.phase ≠ GamePhase.PROPERTY_DECISION then reject g "Nothing to buy"
    else
      match getSpace g.board p.position with
      | none => reject g "No such property"
      | some s =>
        if s.owner ≠ none then reject g "Already owned"
        else if p.cash < (s.price : Int) then reject g "Cannot afford it"
        else
          accept
            { updatePlayer
                (updateSpace g p.position (fun t => { t with owner := some pid }))
                pid (fun q =>
                  { q with
                    cash := q.cash - (s.price : Int)
                    properties := q.properties ++ [p.position] })
              with phase := GamePhase.POST_ROLL }
            "Bought"

/-- `decline_property` modelled from the spec (§4.5): only the current
player, only in `PROPERTY_DECISION`; moves the phase to `POST_ROLL`. -/
def decline_property (g : Game) (pid : Nat) : Game × GResult :=
  match lookupPlayer g pid with
  | none => reject g "Unknown player"
  | some _ =>
    if pid ≠ currentPlayerId g then reject g "Not your turn"
    else if g.phase ≠ GamePhase.PROPERTY_DECISION then reject g "Nothing to decline"
    else accept { g with phase := GamePhase.POST_ROLL } "Declined"

/-- `pay_bail` modelled from the spec (§4.5): only while `IN_JAIL` and
in `PRE_ROLL`; success sets the state `ACTIVE`, resets the jail-turn
counter, and the same turn continues (phase stays `PRE_ROLL`). -/
def pay_bail (g : Game) (pid : Nat) : Game × GResult :=
  match lookupPlayer g pid with
  | none => reject g "Unknown player"
  | some p =>
    if pid ≠ currentPlayerId g then reject g "Not your turn"
    else if g.phase ≠ GamePhase.PRE_ROLL then reject g "Cannot pay bail now"
    else if p.state ≠ PlayerState.IN_JAIL then reject g "Not in jail"
    else if p.cash < BAIL_AMOUNT then reject g "Cannot afford bail"
    else
      accept
        (updatePlayer g pid (fun q =>
          { q with
            cash := q.cash - BAIL_AMOUNT
            state := PlayerState.ACTIVE
            jailTurns := 0 }))
        "Bail paid"

/-- `use_jail_card` modelled from the spec (§4.5, §4.3): only while
`IN_JAIL` and in `PRE_ROLL`; consumes one escape card, releases the
player, and the consumed card is returned to a deck's discard pool
(the model returns it to the chance deck; the player record tracks
escape cards only as a count). -/
def use_jail_card (g : Game) (pid : Nat) : Game × GResult :=
  match lookupPlayer g pid with
  | none => reject g "Unknown player"
  | some p =>
    if pid ≠ currentPlayerId g then reject g "Not your turn"
    else if g.phase ≠ GamePhase.PRE_ROLL then reject g "Cannot use a card now"
    else if p.state ≠ PlayerState.IN_JAIL then reject g "Not in jail"
    else if p.jailCards = 0 then reject g "No escape card held"
    else
      accept
        { updatePlayer g pid (fun q =>
            { q with
              jailCards := q.jailCards - 1
              state := PlayerState.ACTIVE
              jailTurns := 0 })
          with chanceDeck := g.chanceDeck.return_card jailFreeCard }
        "Escape card used"

/-- `build_house` modelled from the spec (§4.4, §4.5): re-validates via
the rule engine, then adds one house to the property, deducts its house
cost, and takes one house from the bank inventory. -/
def build_house (g : Game) (pid : Nat) (pos : Nat) : Game × GResult :=
  match lookupPlayer g pid with
  | none => reject g "Unknown player"
  | some p =>
    if pid ≠ currentPlayerId g then reject g "Not your turn"
    else if g.phase ≠ GamePhase.PRE_ROLL ∧ g.phase ≠ GamePhase.POST_ROLL then
      reject g "Cannot build now"
    else
      let v := validate_build_house g.board p pos g.housesAvailable
      if v.valid then
        accept
          { updatePlayer
              (updateSpace g pos (fun t => { t with houses := t.houses + 1 }))
              pid (fun q => { q with cash := q.cash -
                ((match getSpace g.board pos with
                  | some s => s.houseCost
                  | none => 0 : Nat) : Int) })
            with housesAvailable := g.housesAvailable - 1 }
          "House built"
      else reject g v.message

/-- `build_hotel` modelled from the spec (§4.4, §4.5): re-validates,
then upgrades the property (4 houses become a hotel), deducts the house
cost, and atomically consumes 1 hotel and returns 4 houses to the bank. -/
def build_hotel (g : Game) (pid : Nat) (pos : Nat) : Game × GResult :=
  match lookupPlayer g pid with
  | none => reject g "Unknown player"
  | some p =>
    if pid ≠ currentPlayerId g then reject g "Not your turn"
    else if g.phase ≠ GamePhase.PRE_ROLL ∧ g.phase ≠ GamePhase.POST_ROLL then
      reject g "Cannot build now"
    else
      let v := validate_build_hotel g.board p pos g.hotelsAvailable
      if v.valid then
        accept
          { updatePlayer
              (updateSpace g pos (fun t => { t with houses := 0, hotel := true }))
              pid (fun q => { q with cash := q.cash -
                ((match getSpace g.board pos with
                  | some s => s.houseCost
                  | none => 0 : Nat) : Int) })
            with
            housesAvailable := g.housesAvailable + 4
            hotelsAvailable := g.hotelsAvailable - 1 }
          "Hotel built"
      else reject g v.message

/-- `sell_building` modelled from the spec (§4.4, §4.5): re-validates
(even-selling), then removes a house (or downgrades a hotel back to 4
houses), refunds half the house cost, and adjusts the bank inventory. -/
def sell_building (g : Game) (pid : Nat) (pos : Nat) : Game × GResult :=
  match lookupPlayer g pid with
  | none => reject g "Unknown player"
  | some p =>
    if pid ≠ currentPlayerId g then reject g "Not your turn"
    else if g.phase ≠ GamePhase.PRE_ROLL ∧ g.phase ≠ GamePhase.POST_ROLL then
      reject g "Cannot sell now"
    else
      let v := validate_sell_building g.board p pos g.housesAvailable
      if v.valid then
        match getSpace g.board pos with
        | none => reject g "No such property"
        | some s =>
          if s.hotel then
            accept
              { updatePlayer
                  (updateSpace g pos (fun t => { t with houses := 4, hotel := false }))
                  pid (fun q => { q with cash := q.cash + (s.houseCost / 2 : Nat) })
                with
                housesAvailable := g.housesAvailable - 4
                hotelsAvailable := g.hotelsAvailable + 1 }
              "Hotel sold"
          else
            accept
              { updatePlayer
                  (updateSpace g pos (fun t => { t with houses := t.houses - 1 }))
                  pid (fun q => { q with cash := q.cash + (s.houseCost / 2 : Nat) })
                with housesAvailable := g.housesAvailable + 1 }
              "House sold"
      else reject g v.message

/-- `mortgage_property` modelled from the spec (§4.5, glossary): the
owner flags a building-free property as mortgaged in exchange for its
mortgage value (half price). -/
def mortgage_property (g : Game) (pid : Nat) (pos : Nat) : Game × GResult :=
  match lookupPlayer g pid with
  | none => reject g "Unknown player"
  | some _ =>
    if pid ≠ currentPlayerId g then reject g "Not your turn"
    else
      match getSpace g.board pos with
      | none => reject g "No such property"
      | some s =>
        if s.owner ≠ some pid then reject g "You do not own this property"
        else if s.mortgaged then reject g "Already mortgaged"
        else if s.has_buildings then reject g "Sell the buildings first"
        else
          accept
            (updatePlayer
              (updateSpace g pos (fun t => { t with mortgaged := true }))
              pid (fun q => { q with cash := q.cash + (s.price / 2 : Nat) }))
            "Mortgaged"

/-- `unmortgage_property` modelled from the spec (§4.5, glossary):
reverses a mortgage for a cost (the mortgage value plus 10% interest). -/
def unmortgage_property (g : Game) (pid : Nat) (pos : Nat) : Game × GResult :=
  match lookupPlayer g pid with
  | none => reject g "Unknown player"
  | some p =>
    if pid ≠ currentPlayerId g then reject g "Not your turn"
    else
      match getSpace g.board pos with
      | none => reject g "No such property"
      | some s =>
        if s.owner ≠ some pid then reject g "You do not own this property"
        else if !s.mortgaged then reject g "Not mortgaged"
        else if p.cash < ((s.price / 2 + s.price / 10 : Nat) : Int) then
          reject g "Cannot afford to unmortgage"
        else
          accept
            (updatePlayer
              (updateSpace g pos (fun t => { t with mortgaged := false }))
              pid (fun q =>
                { q with cash := q.cash - ((s.price / 2 + s.price / 10 : Nat) : Int) }))
            "Unmortgaged"

/-- Houses on a player's spaces (liquidated to the bank pool when the
player goes bankrupt to the bank, §4.5). -/
def ownedHouses (b : Board) (pid : Nat) : Nat :=
  ((b.filter (fun s => s.owner == some pid)).map Space.houses).sum

/-- Hotels on a player's spaces. -/
def ownedHotels (b : Board) (pid : Nat) : Nat :=
  ((b.filter (fun s => s.owner == some pid)).map
    (fun s => if s.hotel then 1 else 0)).sum

/-- Modelled from the spec (§4.5): after marking a player bankrupt —
advance the turn immediately if they were the current player, and if
only one non-bankrupt player remains, record them as winner and end
the game. -/
def finishBankruptcy (g : Game) (pid : Nat) : Game :=
  let g1 :=
    if currentPlayerId g = pid then
      { g with
        currentIndex := nextEligibleIndex g
        turnCount := g.turnCount + 1
        phase := GamePhase.PRE_ROLL }
    else g
  match g1.players.filter (fun q => q.state != PlayerState.BANKRUPT) with
  | [q] => { g1 with phase := GamePhase.GAME_OVER, winner := some q.id }
  | _ => g1

/-- `declare_bankruptcy` modelled from the spec (§4.5): marks the player
`BANKRUPT`.  With a creditor, all cash, all owned properties (mortgage
status unchanged), and all escape cards transfer to the creditor.  With
no creditor (the bank), owned properties are returned unowned and
unmortgaged with their houses/hotels liquidated back to the bank pool,
and cash and escape cards are not transferred to anyone. -/
def declare_bankruptcy (g : Game) (pid : Nat) (creditor_id : Option Nat) :
    Game × GResult :=
  match lookupPlayer g pid with
  | none => reject g "Unknown player"
  | some p =>
    if p.state = PlayerState.BANKRUPT then reject g "Already bankrupt"
    else
      match creditor_id with
      | none =>
          accept
            (finishBankruptcy
              { updatePlayer g pid (fun q =>
                  { q with state := PlayerState.BANKRUPT, properties := [] })
                with
                board := g.board.map (fun s =>
                  if s.owner == some pid then
                    { s with
                      owner := none
                      mortgaged := false
                      houses := 0
                      hotel := false }
                  else s)
                housesAvailable := g.housesAvailable + ownedHouses g.board pid
                hotelsAvailable := g.hotelsAvailable + ownedHotels g.board pid }
              pid)
            "Bankrupt to the bank"
      | some cid =>
          match lookupPlayer g cid with
          | none => reject g "Unknown creditor"
          | some _ =>
            if cid = pid then reject g "Invalid creditor"
            else
              accept
                (finishBankruptcy
                  (updatePlayer
                    (updatePlayer
                      { g with
                        board := g.board.map (fun s =>
                          if s.owner == some pid then { s with owner := some cid }
                          else s) }
                      cid (fun q =>
                        { q with
                          cash := q.cash + p.cash
                          jailCards := q.jailCards + p.jailCards
                          properties := q.properties ++ p.properties }))
                    pid (fun q =>
                      { q with
                        state := PlayerState.BANKRUPT
                        cash := 0
                        jailCards := 0
                        properties := [] }))
                  pid)
                "Bankrupt to creditor"

/-- Transfer a list of board positions to a new owner. -/
def transferProps (b : Board) (ps : List Nat) (newOwner : Option Nat) : Board :=
  ps.foldl (fun acc pos =>
    match acc[pos]? with
    | none => acc
    | some s => acc.set pos { s with owner := newOwner }) b

/-- `trade` modelled from the spec (§4.4, §4.5): validates the whole
multi-asset exchange with `validate_trade` and then applies it
atomically — money, building-free properties (mortgage status travels
with them), and escape cards move between the two parties. -/
def trade (g : Game) (from_id to_id : Nat)
    (offered_money requested_money : Nat)
    (offered_properties requested_properties : List Nat)
    (offered_cards requested_cards : Nat) : Game × GResult :=
  match lookupPlayer g from_id, lookupPlayer g to_id with
  | some f, some t =>
    if from_id = to_id then reject g "Cannot trade with yourself"
    else if f.state = PlayerState.BANKRUPT ∨ t.state = PlayerState.BANKRUPT then
      reject g "Bankrupt player"
    else
      let v := validate_trade g.board f t offered_money requested_money
        offered_properties requested_properties offered_cards requested_cards
      if v.valid then
        accept
          (updatePlayer
            (updatePlayer
              { g with board := transferProps
                          (transferProps g.board offered_properties (some to_id))
                          requested_properties (some from_id) }
              from_id (fun q =>
                { q with
                  cash := q.cash - (offered_money : Int) + (requested_money : Int)
                  jailCards := q.jailCards - offered_cards + requested_cards
                  properties :=
                    (q.properties.filter (fun x => !offered_properties.contains x))
                      ++ requested_properties }))
            to_id (fun q =>
              { q with
                cash := q.cash - (requested_money : Int) + (offered_money : Int)
                jailCards := q.jailCards - requested_cards + offered_cards
                properties :=
                  (q.properties.filter (fun x => !requested_properties.contains x))
                    ++ offered_properties }))
          "Trade executed"
      else reject g v.message
  | _, _ => reject g "Unknown player"

/-- `end_turn` modelled from the spec (§4.5): only the current player,
only from `POST_ROLL`.  A player who rolled doubles this turn and was
not jailed keeps the turn (phase back to `PRE_ROLL`, per-turn flags
cleared); otherwise the cursor advances to the next non-bankrupt player,
the turn counter increments, and the phase becomes `PRE_ROLL`. -/
def end_turn (g : Game) (pid : Nat) : Game × GResult :=
  match lookupPlayer g pid with
  | none => reject g "Unknown player"
  | some p =>
    if pid ≠ currentPlayerId g then reject g "Not your turn"
    else if g.phase ≠ GamePhase.POST_ROLL then reject g "Cannot end the turn now"
    else if 0 < p.consecutiveDoubles ∧ p.state ≠ PlayerState.IN_JAIL then
      accept
        { updatePlayer g pid (fun q => { q with hasRolled := false })
          with phase := GamePhase.PRE_ROLL }
        "Doubles: roll again"
    else
      accept
        { updatePlayer g pid (fun q =>
            { q with hasRolled := false, consecutiveDoubles := 0 })
          with
          currentIndex := nextEligibleIndex g
          turnCount := g.turnCount + 1
          phase := GamePhase.PRE_ROLL }
        "Turn ended"

/-- The public game actions, each with its already-parsed arguments
(§1: the engine validates and applies discrete actions). -/
inductive Action where
  | roll_dice (pid d1 d2 : Nat)
  | buy_property (pid : Nat)
  | decline_property (pid : Nat)
  | pay_bail (pid : Nat)
  | use_jail_card (pid : Nat)
  | build_house (pid pos : Nat)
  | build_hotel (pid pos : Nat)
  | sell_building (pid pos : Nat)
  | mortgage_property (pid pos : Nat)
  | unmortgage_property (pid pos : Nat)
  | declare_bankruptcy (pid : Nat) (creditor_id : Option Nat)
  | trade (from_id to_id offered_money requested_money : Nat)
      (offered_properties requested_properties : List Nat)
      (offered_cards requested_cards : Nat)
  | end_turn (pid : Nat)
deriving DecidableEq

/-- Dispatch a public action against the game state. -/
def applyAction (sh : List Card → List Card) (a : Action) (g : Game) :
    Game × GResult :=
  match a with
  | Action.roll_dice pid d1 d2 => roll_dice sh g pid d1 d2
  | Action.buy_property pid => buy_property g pid
  | Action.decline_property pid => decline_property g pid
  | Action.pay_bail pid => pay_bail g pid
  | Action.use_jail_card pid => use_jail_card g pid
  | Action.build_house pid pos => build_house g pid pos
  | Action.build_hotel pid pos => build_hotel g pid pos
  | Action.sell_building pid pos => sell_building g pid pos
  | Action.mortgage_property pid pos => mortgage_property g pid pos
  | Action.unmortgage_property pid pos => unmortgage_property g pid pos
  | Action.declare_bankruptcy pid c => declare_bankruptcy g pid c
  | Action.trade f t om rm op rp oc rc => trade g f t om rm op rp oc rc
  | Action.end_turn pid => end_turn g pid

/-- The states reachable from a start state by any sequence of public
actions (under arbitrary shuffles). -/
inductive Reachable (g0 : Game) : Game → Prop where
  | refl : Reachable g0 g0
  | step {g : Game} (sh : List Card → List Card) (a : Action) :
      Reachable g0 g → Reachable g0 (applyAction sh a g).1

/-- Total number of houses standing on board spaces. -/
def housesOnBoard (b : Board) : Nat := (b.map Space.houses).sum

/-- Total number of hotels standing on board spaces. -/
def hotelsOnBoard (b : Board) : Nat :=
  (b.map (fun s => if s.hotel then 1 else 0)).sum

/-- A fresh game's board: no houses, no hotels anywhere (§3: properties
reset fully between games). -/
def cleanBoard (b : Board) : Bool := b.all (fun s => s.houses == 0 && !s.hotel)

/-- The building-inventory invariant of the spec (§3, §8): houses on the
board plus the bank's available houses equal the total supply, and
likewise for hotels. -/
def buildingInv (g : Game) : Prop :=
  housesOnBoard g.board + g.housesAvailable = TOTAL_HOUSES ∧
  hotelsOnBoard g.board + g.hotelsAvailable = TOTAL_HOTELS

/-- The spec's structural side condition on spaces (§3): a hotel flag
is mutually exclusive with a positive house count. -/
def hotelExclusive (b : Board) : Prop :=
  ∀ s ∈ b, s.hotel = true → s.houses = 0

/-- The induction invariant for the bank-inventory property: the
building counts balance and hotels exclude houses. -/
def fullInv (g : Game) : Prop := buildingInv g ∧ hotelExclusive g.board

/-! ## Concrete sample data for evaluating the definitions -/

/-- A small sample board in the standard shape: GO, two brown
properties, a chest and a chance space, a tax space, two railroads, a
utility, two more properties, and the jail corner. -/
def sampleBoard : Board :=
  [ { spaceType := SpaceType.CORNER },
    { spaceType := SpaceType.PROPERTY, group := 1, price := 60,
      rentTable := [2, 10, 30, 90, 160, 250], houseCost := 50 },
    { spaceType := SpaceType.CARD, cardType := CardType.COMMUNITY_CHEST },
    { spaceType := SpaceType.PROPERTY, group := 1, price := 60,
      rentTable := [4, 20, 60, 180, 320, 450], houseCost := 50 },
    { spaceType := SpaceType.TAX, taxAmount := 200 },
    { spaceType := SpaceType.RAILROAD, group := 100, price := 200 },
    { spaceType := SpaceType.PROPERTY, group := 2, price := 100,
      rentTable := [6, 30, 90, 270, 400, 550], houseCost := 50 },
    { spaceType := SpaceType.CARD, cardType := CardType.CHANCE },
    { spaceType := SpaceType.UTILITY, group := 101, price := 150 },
    { spaceType := SpaceType.PROPERTY, group := 2, price := 100,
      rentTable := [6, 30, 90, 270, 400, 550], houseCost := 50 },
    { spaceType := SpaceType.CORNER },
    { spaceType := SpaceType.RAILROAD, group := 100, price := 200 } ]

/-- A started two-player sample game on `sampleBoard`. -/
def sampleGame : Game :=
  { players :=
      [ { id := 0, name := "Alice", cash := 1500 },
        { id := 1, name := "Bob", cash := 1500 } ]
    player_order := [0, 1]
    board := sampleBoard
    chanceDeck := { card_type := CardType.CHANCE, cards := [payCard, jailFreeCard] }
    chestDeck := { card_type := CardType.COMMUNITY_CHEST, cards := [payCard] }
    phase := GamePhase.PRE_ROLL }

/-- `sampleBoard` with both brown properties owned by player 0,
space 1 carrying one house and mortgaged-free, space 3 bare. -/
def brownBoard : Board :=
  (sampleBoard.set 1
      { spaceType := SpaceType.PROPERTY, group := 1, price := 60,
        rentTable := [2, 10, 30, 90, 160, 250], houseCost := 50,
        owner := some 0, houses := 1 }).set 3
    { spaceType := SpaceType.PROPERTY, group := 1, price := 60,
      rentTable := [4, 20, 60, 180, 320, 450], houseCost := 50,
      owner := some 0 }

/-- `sampleBoard` with the space at position 1 owned by player 0 and
mortgaged. -/
def mortgagedBoard : Board :=
  sampleBoard.set 1
    { spaceType := SpaceType.PROPERTY, group := 1, price := 60,
      rentTable := [2, 10, 30, 90, 160, 250], houseCost := 50,
      owner := some 0, mortgaged := true }

/-- `sampleBoard` with the railroad at position 5 owned by player 0 and
the railroad at position 11 owned by player 0 but mortgaged. -/
def railBoard : Board :=
  (sampleBoard.set 5
      { spaceType := SpaceType.RAILROAD, group := 100, price := 200,
        owner := some 0 }).set 11
    { spaceType := SpaceType.RAILROAD, group := 100, price := 200,
      owner := some 0, mortgaged := true }

/-- `sampleGame` with player 0 about to roll a third consecutive double. -/
def doublesGame : Game :=
  { sampleGame with players :=
      [ { id := 0, name := "Alice", cash := 1500, consecutiveDoubles := 2 },
        { id := 1, name := "Bob", cash := 1500 } ] }

/-- `sampleGame` with player 0 owning the brown group (one mortgaged),
holding two escape cards and some cash, for bankruptcy evaluations. -/
def debtGame : Game :=
  { sampleGame with
    board := (sampleBoard.set 1
        { spaceType := SpaceType.PROPERTY, group := 1, price := 60,
          rentTable := [2, 10, 30, 90, 160, 250], houseCost := 50,
          owner := some 0, houses := 2 }).set 3
      { spaceType := SpaceType.PROPERTY, group := 1, price := 60,
        rentTable := [4, 20, 60, 180, 320, 450], houseCost := 50,
        owner := some 0, mortgaged := true }
    players :=
      [ { id := 0, name := "Alice", cash := 50, properties := [1, 3],
          jailCards := 2 },
        { id := 1, name := "Bob", cash := 1500 } ]
    housesAvailable := TOTAL_HOUSES - 2 }

/-! ## Theorems -/

/-- `draw` on a non-empty queue pops its front card, discarding it
unless it is keepable. -/
theorem draw_pop_front (sh : List Card → List Card) (d : CardDeck)
    (c : Card) (rest : List Card) (hc : d.cards = c :: rest) :
    CardDeck.draw sh d = some (c,
      { d with
        cards := rest
        discard := if c.keep then d.discard else d.discard ++ [c] }) := by
  simp [CardDeck.draw, hc]

/-- `draw` on an exhausted queue reshuffles the discard pile into a new
queue (a permutation of it), clears the discard, and pops the front. -/
theorem draw_reshuffle (sh : List Card → List Card)
    (hsh : ∀ l, (sh l).Perm l) (d : CardDeck)
    (hc : d.cards = []) (hd : d.discard ≠ []) :
    ∃ c q, sh d.discard = c :: q ∧ (c :: q).Perm d.discard ∧
      CardDeck.draw sh d = some (c,
        { d with cards := q, discard := if c.keep then [] else [c] }) := by
  have hp := hsh d.discard
  cases hq : sh d.discard with
  | nil =>
      rw [hq] at hp
      exact absurd hp.symm.eq_nil hd
  | cons c q =>
      refine ⟨c, q, rfl, hq ▸ hp, ?_⟩
      cases hk : c.keep <;> simp [CardDeck.draw, hc, hq, hk]

/-- C8: `CardDeck.draw()` pops and returns the front card of the queue;
when the queue is empty and the discard pile is non-empty, the discard
pile first becomes the new queue (a shuffled permutation of exactly the
discarded cards), the discard pile is cleared, and then the front card
of the new queue is popped and returned. -/
theorem claim_C8 (sh : List Card → List Card)
    (hsh : ∀ l, (sh l).Perm l) (d : CardDeck) :
    (∀ c rest, d.cards = c :: rest →
      CardDeck.draw sh d = some (c,
        { d with
          cards := rest
          discard := if c.keep then d.discard else d.discard ++ [c] })) ∧
    (d.cards = [] → d.discard ≠ [] →
      ∃ c q, sh d.discard = c :: q ∧ (c :: q).Perm d.discard ∧
        CardDeck.draw sh d = some (c,
          { d with cards := q, discard := if c.keep then [] else [c] })) :=
  ⟨fun c rest hc => draw_pop_front sh d c rest hc,
   fun hc hd => draw_reshuffle sh hsh d hc hd⟩

/-- Witness for C8 at a concrete deck: the front card of a one-card
queue is popped and, being non-keepable, appended to the discard. -/
theorem claim_C8_witness :
    CardDeck.draw id
      { card_type := CardType.CHANCE, cards := [payCard],
        discard := [jailFreeCard] } =
      some (payCard,
        { card_type := CardType.CHANCE, cards := [],
          discard := [jailFreeCard, payCard] }) :=
  (claim_C8 id (fun l => List.Perm.refl l)
      { card_type := CardType.CHANCE, cards := [payCard],
        discard := [jailFreeCard] }).1
    payCard [] rfl

/-- C9: with at least one card in queue plus discard, drawing a
non-keepable card keeps the total `len(cards) + len(discard)` constant,
drawing a keepable card decreases it by exactly 1, and `return_card`
increases it by exactly 1. -/
theorem claim_C9 (sh : List Card → List Card)
    (hsh : ∀ l, (sh l).Perm l) (d : CardDeck)
    (h : 1 ≤ d.cards.length + d.discard.length) :
    (∃ c d', CardDeck.draw sh d = some (c, d') ∧
      (c.keep = false →
        d'.cards.length + d'.discard.length =
          d.cards.length + d.discard.length) ∧
      (c.keep = true →
        d'.cards.length + d'.discard.length + 1 =
          d.cards.length + d.discard.length)) ∧
    (∀ (e : CardDeck) (c : Card),
      (e.return_card c).cards.length + (e.return_card c).discard.length =
        e.cards.length + e.discard.length + 1) := by
  constructor
  · cases hc : d.cards with
    | cons c rest =>
        refine ⟨c, _, draw_pop_front sh d c rest hc, ?_, ?_⟩ <;>
          intro hk <;> simp [hc, hk] <;> omega
    | nil =>
        have hd : d.discard ≠ [] := by
          intro hnil
          rw [hc, hnil] at h
          simp at h
        obtain ⟨c, q, hq, hperm, hdraw⟩ := draw_reshuffle sh hsh d hc hd
        have hlen : q.length + 1 = d.discard.length := by
          have := hperm.length_eq
          simpa using this
        refine ⟨c, _, hdraw, ?_, ?_⟩ <;> intro hk <;> simp [hc, hk] <;> omega
  · intro e c
    simp [CardDeck.return_card]
    omega

/-- Witness for C9: `return_card` on a concrete deck grows the total by
one. -/
theorem claim_C9_witness :
    (CardDeck.return_card
        { card_type := CardType.CHANCE, cards := [payCard],
          discard := [jailFreeCard] } payCard).cards.length +
      (CardDeck.return_card
        { card_type := CardType.CHANCE, cards := [payCard],
          discard := [jailFreeCard] } payCard).discard.length = 3 :=
  (claim_C9 id (fun l => List.Perm.refl l)
      { card_type := CardType.CHANCE, cards := [payCard],
        discard := [jailFreeCard] } (by decide)).2
    { card_type := CardType.CHANCE, cards := [payCard],
      discard := [jailFreeCard] } payCard

/-- C10: drawing from a deck whose queue and discard pile are both
empty fails — the model returns `none`, which embeds the uncaught
`IndexError` that `self.cards.pop(0)` raises on an empty list. -/
theorem claim_C10 (sh : List Card → List Card)
    (hsh : ∀ l, (sh l).Perm l) (d : CardDeck)
    (h1 : d.cards = []) (h2 : d.discard = []) :
    CardDeck.draw sh d = none := by
  have : sh [] = [] := (hsh []).eq_nil
  simp [CardDeck.draw, h1, h2, this]

/-- Witness for C10 at the concrete fully-exhausted deck. -/
theorem claim_C10_witness :
    CardDeck.draw id { card_type := CardType.CHANCE } = none :=
  claim_C10 id (fun l => List.Perm.refl l)
    { card_type := CardType.CHANCE } rfl rfl

/-- C3: a mortgaged property yields zero rent, for every dice roll,
every landing player, every development level, and regardless of
monopoly (spec-modelled `calculate_rent`). -/
theorem claim_C3 (b : Board) (pos dice_roll landing_player_id : Nat)
    (s : Space) (hs : getSpace b pos = some s) (hm : s.mortgaged = true) :
    calculate_rent b pos dice_roll landing_player_id = 0 := by
  simp only [calculate_rent, hs]
  cases ho : s.owner with
  | none => rfl
  | some o =>
    by_cases he : o = landing_player_id
    · simp [he]
    · simp [he, hm]

/-- Witness for C3: the mortgaged developed-rent-table property at
position 1 of the sample board charges nothing. -/
theorem claim_C3_witness : calculate_rent mortgagedBoard 1 7 1 = 0 :=
  claim_C3 mortgagedBoard 1 7 1
    { spaceType := SpaceType.PROPERTY, group := 1, price := 60,
      rentTable := [2, 10, 30, 90, 160, 250], houseCost := 50,
      owner := some 0, mortgaged := true }
    rfl rfl

/-- C4: an unmortgaged railroad owned by a player other than the
landing player charges `25 * 2^(k-1)` where `k ≥ 1` counts every
railroad of that owner — including mortgaged ones, since the count
ignores the mortgage flag — and `k` is at most the number of railroads
on the board (4 on the standard board, giving 25/50/100/200). -/
theorem claim_C4 (b : Board) (pos dice lander : Nat) (s : Space) (o : Nat)
    (hs : getSpace b pos = some s)
    (ht : s.spaceType = SpaceType.RAILROAD)
    (ho : s.owner = some o)
    (hne : o ≠ lander)
    (hm : s.mortgaged = false) :
    calculate_rent b pos dice lander =
      25 * 2 ^ (countOwnedOfType b SpaceType.RAILROAD o - 1) ∧
    1 ≤ countOwnedOfType b SpaceType.RAILROAD o ∧
    countOwnedOfType b SpaceType.RAILROAD o ≤
      b.countP (fun t => t.spaceType == SpaceType.RAILROAD) := by
  have hmem : s ∈ b := by
    obtain ⟨hn, rfl⟩ := List.getElem?_eq_some.mp hs
    exact List.getElem_mem hn
  refine ⟨?_, ?_, ?_⟩
  · simp only [calculate_rent, hs, ho, ht]
    simp [hne, hm]
  · have : 0 < b.countP
        (fun t => t.spaceType == SpaceType.RAILROAD && t.owner == some o) := by
      refine List.countP_pos_iff.mpr ⟨s, hmem, ?_⟩
      simp [ht, ho]
    simpa [countOwnedOfType] using this
  · simp only [countOwnedOfType]
    refine List.countP_mono_left ?_
    intro x _ hx
    simp only [Bool.and_eq_true, beq_iff_eq] at hx
    simp [hx.1]

/-- Witness for C4: on the sample two-railroad board where player 0
owns both and one of them is mortgaged, landing on the unmortgaged one
still charges the two-railroad rate. -/
theorem claim_C4_witness :
    calculate_rent railBoard 5 7 1 =
      25 * 2 ^ (countOwnedOfType railBoard SpaceType.RAILROAD 0 - 1) ∧
    countOwnedOfType railBoard SpaceType.RAILROAD 0 = 2 ∧
    calculate_rent railBoard 5 7 1 = 50 :=
  ⟨(claim_C4 railBoard 5 7 1
      { spaceType := SpaceType.RAILROAD, group := 100, price := 200,
        owner := some 0 } 0
      rfl rfl rfl (by decide) rfl).1,
   by decide, by decide⟩

/-- C5: when the ownership, monopoly, type, and group-mortgage checks
pass, `validate_build_house` rejects with `UNEVEN_BUILDING` whenever
the target's current house count strictly exceeds the group's minimum
house count, and `validate_build_hotel` rejects (with the same outcome)
unless every property of the group has exactly 4 houses. -/
theorem claim_C5 (b : Board) (p : Player) (pos : Nat) (s : Space)
    (hs : getSpace b pos = some s)
    (hown : s.owner = some p.id)
    (hmono : player_has_monopoly b p.id s.group = true)
    (htype : s.spaceType = SpaceType.PROPERTY)
    (hmort : groupAnyMortgaged b s.group = false) :
    (∀ housesAvailable, groupMinHouses b s.group s.houses < s.houses →
      validate_build_house b p pos housesAvailable =
        ⟨false, ActionResult.UNEVEN_BUILDING, "Build evenly across the group"⟩) ∧
    (∀ hotelsAvailable, (∃ t ∈ groupSpaces b s.group, t.houses ≠ 4) →
      validate_build_hotel b p pos hotelsAvailable =
        ⟨false, ActionResult.UNEVEN_BUILDING,
          "All group members need 4 houses"⟩) := by
  constructor
  · intro ha huneven
    simp [validate_build_house, hs, hown, hmono, htype, hmort, huneven]
  · intro ho hfour
    have hall : groupAllFourHouses b s.group = false := by
      obtain ⟨t, htmem, ht4⟩ := hfour
      simp only [groupAllFourHouses, List.all_eq_false]
      exact ⟨t, htmem, by simpa using ht4⟩
    simp [validate_build_hotel, hs, hown, hmono, htype, hmort, hall]

/-- Witness for C5 on the sample brown group (position 1 with one
house, position 3 bare, both owned by player 0): the second house on
position 1 and a hotel are both rejected as uneven building. -/
theorem claim_C5_witness :
    validate_build_house brownBoard
        { id := 0, name := "Alice", cash := 1500 } 1 32 =
      ⟨false, ActionResult.UNEVEN_BUILDING, "Build evenly across the group"⟩ ∧
    validate_build_hotel brownBoard
        { id := 0, name := "Alice", cash := 1500 } 1 12 =
      ⟨false, ActionResult.UNEVEN_BUILDING, "All group members need 4 houses"⟩ :=
  ⟨(claim_C5 brownBoard { id := 0, name := "Alice", cash := 1500 } 1
      { spaceType := SpaceType.PROPERTY, group := 1, price := 60,
        rentTable := [2, 10, 30, 90, 160, 250], houseCost := 50,
        owner := some 0, houses := 1 }
      rfl rfl (by decide) rfl (by decide)).1 32 (by decide),
   (claim_C5 brownBoard { id := 0, name := "Alice", cash := 1500 } 1
      { spaceType := SpaceType.PROPERTY, group := 1, price := 60,
        rentTable := [2, 10, 30, 90, 160, 250], houseCost := 50,
        owner := some 0, houses := 1 }
      rfl rfl (by decide) rfl (by decide)).2 12
     ⟨{ spaceType := SpaceType.PROPERTY, group := 1, price := 60,
        rentTable := [4, 20, 60, 180, 320, 450], houseCost := 50,
        owner := some 0 },
      by decide, by decide⟩⟩

/-- C1: every public game action that is rejected (`success = false`)
leaves the entire game state exactly as it was — the model's actions
validate fully before mutating and return the untouched state on every
rejection path. -/
theorem claim_C1 (sh : List Card → List Card) (a : Action) (g : Game) :
    (applyAction sh a g).2.success = false → (applyAction sh a g).1 = g := by
  cases a <;>
    simp only [applyAction, roll_dice, buy_property, decline_property,
      pay_bail, use_jail_card, build_house, build_hotel, sell_building,
      mortgage_property, unmortgage_property, declare_bankruptcy, trade,
      end_turn, reject, accept] <;>
    (repeat' split) <;> simp_all

/-- Witness for C1: ending the turn with an unknown player id on the
sample game is rejected and mutates nothing. -/
theorem claim_C1_witness :
    (applyAction id (Action.end_turn 99) sampleGame).2.success = false ∧
    (applyAction id (Action.end_turn 99) sampleGame).1 = sampleGame :=
  ⟨rfl, claim_C1 id (Action.end_turn 99) sampleGame rfl⟩

/-- Updating the player with a given id rewrites the result of looking
that id up, provided the update preserves ids. -/
theorem find?_map_update (l : List Player) (pid : Nat) (f : Player → Player)
    (hf : ∀ q, (f q).id = q.id) :
    (l.map (fun q => if q.id == pid then f q else q)).find?
        (fun q => q.id == pid) =
      (l.find? (fun q => q.id == pid)).map f := by
  induction l with
  | nil => rfl
  | cons q qs ih =>
    rw [List.map_cons]
    by_cases h : (q.id == pid) = true
    · have hfq : ((f q).id == pid) = true := by rw [hf q]; exact h
      rw [if_pos h, List.find?_cons, List.find?_cons]
      simp only [hfq, h]
      rfl
    · have hb : (q.id == pid) = false := by simpa using h
      rw [if_neg h, List.find?_cons, List.find?_cons]
      simp only [hb]
      exact ih

/-- Updating one player leaves the lookup of any other id unchanged. -/
theorem find?_map_update_ne (l : List Player) (pid qid : Nat)
    (f : Player → Player) (hf : ∀ q, (f q).id = q.id) (hne : qid ≠ pid) :
    (l.map (fun q => if q.id == pid then f q else q)).find?
        (fun q => q.id == qid) =
      l.find? (fun q => q.id == qid) := by
  induction l with
  | nil => rfl
  | cons q qs ih =>
    rw [List.map_cons]
    by_cases h : (q.id == pid) = true
    · have hqp : q.id = pid := by simpa using h
      have hq : (q.id == qid) = false := by simp [hqp, Ne.symm hne]
      have hfq : ((f q).id == qid) = false := by rw [hf q]; exact hq
      rw [if_pos h, List.find?_cons, List.find?_cons]
      simp only [hfq, hq]
      exact ih
    · by_cases h2 : (q.id == qid) = true
      · rw [if_neg h, List.find?_cons, List.find?_cons]
        simp only [h2]
      · have hb2 : (q.id == qid) = false := by simpa using h2
        rw [if_neg h, List.find?_cons, List.find?_cons]
        simp only [hb2]
        exact ih

/-- `lookupPlayer` after `updatePlayer` on the same id. -/
theorem lookupPlayer_updatePlayer_self (g : Game) (pid : Nat)
    (f : Player → Player) (hf : ∀ q, (f q).id = q.id) :
    lookupPlayer (updatePlayer g pid f) pid = (lookupPlayer g pid).map f :=
  find?_map_update g.players pid f hf

/-- `lookupPlayer` after `updatePlayer` on a different id. -/
theorem lookupPlayer_updatePlayer_ne (g : Game) (pid qid : Nat)
    (f : Player → Player) (hf : ∀ q, (f q).id = q.id) (hne : qid ≠ pid) :
    lookupPlayer (updatePlayer g pid f) qid = lookupPlayer g qid :=
  find?_map_update_ne g.players pid qid f hf hne

/-- C6: a non-jailed current player whose roll is the third consecutive
double is sent directly to jail — state `IN_JAIL` at the jail position,
phase `POST_ROLL` and never `PRE_ROLL` (no bonus roll), and no landing
effect is processed: board, decks, and the player's cash are untouched. -/
theorem claim_C6 (sh : List Card → List Card) (g : Game)
    (pid d1 d2 : Nat) (p : Player)
    (hlook : lookupPlayer g pid = some p)
    (hcur : currentPlayerId g = pid)
    (hphase : g.phase = GamePhase.PRE_ROLL)
    (hstate : p.state = PlayerState.ACTIVE)
    (hcd : p.consecutiveDoubles = 2)
    (hdub : d1 = d2) :
    (roll_dice sh g pid d1 d2).2.success = true ∧
    (roll_dice sh g pid d1 d2).1.phase = GamePhase.POST_ROLL ∧
    (roll_dice sh g pid d1 d2).1.phase ≠ GamePhase.PRE_ROLL ∧
    (roll_dice sh g pid d1 d2).1.board = g.board ∧
    (roll_dice sh g pid d1 d2).1.chanceDeck = g.chanceDeck ∧
    (roll_dice sh g pid d1 d2).1.chestDeck = g.chestDeck ∧
    ∃ p', lookupPlayer (roll_dice sh g pid d1 d2).1 pid = some p' ∧
      p'.state = PlayerState.IN_JAIL ∧
      p'.position = JAIL_POSITION ∧
      p'.cash = p.cash := by
  subst hdub
  have hred : roll_dice sh g pid d1 d1 =
      accept
        { updatePlayer { g with lastDice := some ⟨d1, d1⟩ } pid
            (fun q => Player.send_to_jail { q with hasRolled := true })
          with phase := GamePhase.POST_ROLL }
        "Three doubles: go to jail" := by
    simp [roll_dice, hlook, hcur, hphase, hstate, hcd]
  rw [hred]
  refine ⟨rfl, rfl, by simp [accept], rfl, rfl, rfl,
    Player.send_to_jail { p with hasRolled := true }, ?_, rfl, rfl, rfl⟩
  have h1 : lookupPlayer
      (updatePlayer { g with lastDice := some ⟨d1, d1⟩ } pid
        (fun q => Player.send_to_jail { q with hasRolled := true })) pid =
      (lookupPlayer g pid).map
        (fun q => Player.send_to_jail { q with hasRolled := true }) :=
    lookupPlayer_updatePlayer_self _ pid _ (fun q => rfl)
  show lookupPlayer
      (updatePlayer { g with lastDice := some ⟨d1, d1⟩ } pid
        (fun q => Player.send_to_jail { q with hasRolled := true })) pid = _
  rw [h1, hlook]
  rfl

/-- Witness for C6: player 0 of the sample game with two consecutive
doubles rolls 3–3 and lands in jail with the turn over. -/
theorem claim_C6_witness :
    (roll_dice id doublesGame 0 3 3).2.success = true ∧
    (roll_dice id doublesGame 0 3 3).1.phase = GamePhase.POST_ROLL ∧
    (roll_dice id doublesGame 0 3 3).1.board = doublesGame.board := by
  have h := claim_C6 id doublesGame 0 3 3
    { id := 0, name := "Alice", cash := 1500, consecutiveDoubles := 2 }
    rfl rfl rfl rfl rfl rfl
  exact ⟨h.1, h.2.1, h.2.2.2.1⟩

/-- `finishBankruptcy` only touches the turn cursor, phase, turn
counter, and winner — players, board, and bank inventory survive. -/
theorem finishBankruptcy_preserve (g : Game) (pid : Nat) :
    (finishBankruptcy g pid).players = g.players ∧
    (finishBankruptcy g pid).board = g.board ∧
    (finishBankruptcy g pid).housesAvailable = g.housesAvailable ∧
    (finishBankruptcy g pid).hotelsAvailable = g.hotelsAvailable := by
  simp only [finishBankruptcy]
  repeat' split
  all_goals exact ⟨rfl, rfl, rfl, rfl⟩

/-- `getSpace` commutes with mapping a function over the board. -/
theorem getSpace_map (b : Board) (f : Space → Space) (pos : Nat) :
    getSpace (b.map f) pos = (getSpace b pos).map f := by
  simp [getSpace]

/-- C7: `declare_bankruptcy` with no creditor returns every property of
the bankrupt player to unowned, unmortgaged, building-free state (the
buildings going back to the bank pool) and transfers no cash and no
escape cards to anyone (every other player's record is untouched);
with a creditor, all cash, all owned properties with their mortgage
flags unchanged, and all escape cards go to the creditor. -/
theorem claim_C7 (g : Game) (pid : Nat) (p : Player)
    (hlook : lookupPlayer g pid = some p)
    (hnb : p.state ≠ PlayerState.BANKRUPT) :
    ((declare_bankruptcy g pid none).2.success = true ∧
     (∀ pos s, getSpace g.board pos = some s → s.owner = some pid →
        getSpace (declare_bankruptcy g pid none).1.board pos =
          some { s with owner := none, mortgaged := false,
                        houses := 0, hotel := false }) ∧
     (declare_bankruptcy g pid none).1.housesAvailable =
        g.housesAvailable + ownedHouses g.board pid ∧
     (declare_bankruptcy g pid none).1.hotelsAvailable =
        g.hotelsAvailable + ownedHotels g.board pid ∧
     (∀ qid q, qid ≠ pid → lookupPlayer g qid = some q →
        lookupPlayer (declare_bankruptcy g pid none).1 qid = some q)) ∧
    (∀ cid c, lookupPlayer g cid = some c → cid ≠ pid →
      (declare_bankruptcy g pid (some cid)).2.success = true ∧
      (∀ pos s, getSpace g.board pos = some s → s.owner = some pid →
        getSpace (declare_bankruptcy g pid (some cid)).1.board pos =
          some { s with owner := some cid }) ∧
      ∃ c', lookupPlayer (declare_bankruptcy g pid (some cid)).1 cid = some c' ∧
        c'.cash = c.cash + p.cash ∧
        c'.jailCards = c.jailCards + p.jailCards) := by
  constructor
  · have hred : declare_bankruptcy g pid none =
        accept
          (finishBankruptcy
            { updatePlayer g pid (fun q =>
                { q with state := PlayerState.BANKRUPT, properties := [] })
              with
              board := g.board.map (fun s =>
                if s.owner == some pid then
                  { s with
                    owner := none
                    mortgaged := false
                    houses := 0
                    hotel := false }
                else s)
              housesAvailable := g.housesAvailable + ownedHouses g.board pid
              hotelsAvailable := g.hotelsAvailable + ownedHotels g.board pid }
            pid)
          "Bankrupt to the bank" := by
      simp [declare_bankruptcy, hlook, hnb]
    rw [hred]
    have hpre := finishBankruptcy_preserve
      { updatePlayer g pid (fun q =>
          { q with state := PlayerState.BANKRUPT, properties := [] })
        with
        board := g.board.map (fun s =>
          if s.owner == some pid then
            { s with
              owner := none
              mortgaged := false
              houses := 0
              hotel := false }
          else s)
        housesAvailable := g.housesAvailable + ownedHouses g.board pid
        hotelsAvailable := g.hotelsAvailable + ownedHotels g.board pid } pid
    refine ⟨rfl, ?_, ?_, ?_, ?_⟩
    · intro pos s hs hso
      show getSpace (finishBankruptcy _ pid).board pos = _
      rw [hpre.2.1]
      show getSpace (g.board.map _) pos = _
      rw [getSpace_map, hs]
      simp [hso]
    · show (finishBankruptcy _ pid).housesAvailable = _
      rw [hpre.2.2.1]
    · show (finishBankruptcy _ pid).hotelsAvailable = _
      rw [hpre.2.2.2]
    · intro qid q hne hq
      show lookupPlayer (finishBankruptcy _ pid) qid = some q
      show (finishBankruptcy _ pid).players.find? (fun r => r.id == qid) = some q
      rw [hpre.1]
      show lookupPlayer (updatePlayer _ pid _) qid = some q
      exact (lookupPlayer_updatePlayer_ne g pid qid
        (fun q => { q with state := PlayerState.BANKRUPT, properties := [] })
        (fun r => rfl) hne).trans hq
  · intro cid c hlookc hne
    have hred : declare_bankruptcy g pid (some cid) =
        accept
          (finishBankruptcy
            (updatePlayer
              (updatePlayer
                { g with board := g.board.map (fun s =>
                    if s.owner == some pid then { s with owner := some cid }
                    else s) }
                cid (fun q =>
                  { q with
                    cash := q.cash + p.cash
                    jailCards := q.jailCards + p.jailCards
                    properties := q.properties ++ p.properties }))
              pid (fun q =>
                { q with
                  state := PlayerState.BANKRUPT
                  cash := 0
                  jailCards := 0
                  properties := [] }))
            pid)
          "Bankrupt to creditor" := by
      simp [declare_bankruptcy, hlook, hnb, hlookc, hne]
    rw [hred]
    have hpre := finishBankruptcy_preserve
      (updatePlayer
        (updatePlayer
          { g with board := g.board.map (fun s =>
              if s.owner == some pid then { s with owner := some cid }
              else s) }
          cid (fun q =>
            { q with
              cash := q.cash + p.cash
              jailCards := q.jailCards + p.jailCards
              properties := q.properties ++ p.properties }))
        pid (fun q =>
          { q with
            state := PlayerState.BANKRUPT
            cash := 0
            jailCards := 0
            properties := [] })) pid
    refine ⟨rfl, ?_, ?_⟩
    · intro pos s hs hso
      show getSpace (finishBankruptcy _ pid).board pos = _
      rw [hpre.2.1]
      show getSpace (g.board.map _) pos = _
      rw [getSpace_map, hs]
      simp [hso]
    · refine ⟨{ c with
          cash := c.cash + p.cash
          jailCards := c.jailCards + p.jailCards
          properties := c.properties ++ p.properties }, ?_, rfl, rfl⟩
      show (finishBankruptcy _ pid).players.find? (fun r => r.id == cid) = _
      rw [hpre.1]
      show lookupPlayer (updatePlayer (updatePlayer _ cid _) pid _) cid = _
      refine ((lookupPlayer_updatePlayer_ne
        (updatePlayer
          { g with board := g.board.map (fun s =>
              if s.owner == some pid then { s with owner := some cid }
              else s) }
          cid (fun q =>
            { q with
              cash := q.cash + p.cash
              jailCards := q.jailCards + p.jailCards
              properties := q.properties ++ p.properties }))
        pid cid
        (fun q =>
          { q with
            state := PlayerState.BANKRUPT
            cash := 0
            jailCards := 0
            properties := [] })
        (fun r => rfl) hne).trans ?_)
      refine (lookupPlayer_updatePlayer_self
        { g with board := g.board.map (fun s =>
            if s.owner == some pid then { s with owner := some cid }
            else s) }
        cid
        (fun q =>
          { q with
            cash := q.cash + p.cash
            jailCards := q.jailCards + p.jailCards
            properties := q.properties ++ p.properties })
        (fun r => rfl)).trans ?_
      show (lookupPlayer g cid).map _ = _
      rw [hlookc]
      rfl

/-- Witness for C7 on the sample indebted game: bankruptcy to the bank
clears and unmortgages the mortgaged brown property and restores the
bank's house pool; bankruptcy to player 1 succeeds. -/
theorem claim_C7_witness :
    (declare_bankruptcy debtGame 0 none).2.success = true ∧
    getSpace (declare_bankruptcy debtGame 0 none).1.board 3 =
      some { spaceType := SpaceType.PROPERTY, group := 1, price := 60,
             rentTable := [4, 20, 60, 180, 320, 450], houseCost := 50 } ∧
    (declare_bankruptcy debtGame 0 none).1.housesAvailable = 32 ∧
    (declare_bankruptcy debtGame 0 (some 1)).2.success = true := by
  have h := claim_C7 debtGame 0
    { id := 0, name := "Alice", cash := 50, properties := [1, 3],
      jailCards := 2 }
    rfl (by decide)
  refine ⟨h.1.1, ?_, ?_, (h.2 1 { id := 1, name := "Bob", cash := 1500 }
    rfl (by decide)).1⟩
  · exact h.1.2.1 3
      { spaceType := SpaceType.PROPERTY, group := 1, price := 60,
        rentTable := [4, 20, 60, 180, 320, 450], houseCost := 50,
        owner := some 0, mortgaged := true }
      rfl rfl
  · rw [h.1.2.2.1]
    rfl

/-- Replacing one element shifts a mapped sum by the difference of the
images (stated additively to stay in `Nat`). -/
theorem sum_map_set {α : Type} (f : α → Nat) (l : List α) (n : Nat) (a : α)
    (h : n < l.length) :
    ((l.set n a).map f).sum + f l[n] = (l.map f).sum + f a := by
  induction l generalizing n with
  | nil => simp at h
  | cons x xs ih =>
    cases n with
    | zero => simp [List.set]; omega
    | succ m =>
      have hm : m < xs.length := by simpa using h
      have := ih m hm
      simp only [List.set, List.map_cons, List.sum_cons, List.getElem_cons_succ]
      omega

/-- An element of the board is reachable from a successful position
lookup. -/
theorem mem_of_getSpace (b : Board) (pos : Nat) (s : Space)
    (hs : getSpace b pos = some s) : s ∈ b := by
  obtain ⟨hn, rfl⟩ := List.getElem?_eq_some.mp hs
  exact List.getElem_mem hn

/-- A clean board carries no houses and no hotels. -/
theorem cleanBoard_sums (b : Board) (h : cleanBoard b = true) :
    housesOnBoard b = 0 ∧ hotelsOnBoard b = 0 ∧ hotelExclusive b := by
  simp only [cleanBoard, List.all_eq_true, Bool.and_eq_true] at h
  refine ⟨?_, ?_, ?_⟩
  · simp only [housesOnBoard, List.sum_eq_zero_iff]
    intro x hx
    obtain ⟨s, hs, rfl⟩ := List.mem_map.mp hx
    simpa using (h s hs).1
  · simp only [hotelsOnBoard, List.sum_eq_zero_iff]
    intro x hx
    obtain ⟨s, hs, rfl⟩ := List.mem_map.mp hx
    have := (h s hs).2
    simp only [Bool.not_eq_eq_eq_not, Bool.not_true] at this
    simp [this]
  · intro s hs hh
    have := (h s hs).2
    simp [hh] at this

/-- `setDeck` only touches a deck field. -/
theorem setDeck_fields (g : Game) (t : CardType) (d : CardDeck) :
    (setDeck g t d).board = g.board ∧
    (setDeck g t d).housesAvailable = g.housesAvailable ∧
    (setDeck g t d).hotelsAvailable = g.hotelsAvailable := by
  cases t <;> exact ⟨rfl, rfl, rfl⟩

/-- Effect of a single-space update on the board's building sums. -/
theorem updateSpace_sums (g : Game) (pos : Nat) (f : Space → Space)
    (s : Space) (hs : getSpace g.board pos = some s) :
    housesOnBoard (updateSpace g pos f).board + s.houses =
      housesOnBoard g.board + (f s).houses ∧
    hotelsOnBoard (updateSpace g pos f).board +
        (if s.hotel then 1 else 0) =
      hotelsOnBoard g.board + (if (f s).hotel then 1 else 0) := by
  obtain ⟨hn, hg⟩ := List.getElem?_eq_some.mp hs
  have hboard : (updateSpace g pos f).board = g.board.set pos (f s) := by
    simp only [updateSpace]
    rw [show g.board[pos]? = some s from hs]
  constructor
  · have := sum_map_set Space.houses g.board pos (f s) hn
    rw [hboard]
    simpa [housesOnBoard, hg] using this
  · have := sum_map_set (fun t => if t.hotel then 1 else 0) g.board pos
      (f s) hn
    rw [hboard]
    simpa [hotelsOnBoard, hg] using this

/-- A single-space update whose function clears or keeps the
hotel/houses discipline preserves `hotelExclusive`. -/
theorem hotelExclusive_set (b : Board) (pos : Nat) (a : Space)
    (hexcl : hotelExclusive b)
    (ha : a.hotel = true → a.houses = 0) :
    hotelExclusive (b.set pos a) := by
  intro s hsmem hh
  rcases List.mem_or_eq_of_mem_set hsmem with hmem | rfl
  · exact hexcl s hmem hh
  · exact ha hh

/-- An update that keeps both building fields of every space preserves
the full invariant. -/
theorem fullInv_updateSpace (g : Game) (pos : Nat) (f : Space → Space)
    (hf : ∀ s, (f s).houses = s.houses ∧ (f s).hotel = s.hotel)
    (h : fullInv g) : fullInv (updateSpace g pos f) := by
  cases hb : getSpace g.board pos with
  | none =>
    have : (updateSpace g pos f).board = g.board := by
      simp only [updateSpace]
      rw [show g.board[pos]? = none from hb]
    refine ⟨?_, ?_⟩
    · show housesOnBoard (updateSpace g pos f).board +
          (updateSpace g pos f).housesAvailable = TOTAL_HOUSES ∧ _
      rw [this]
      exact h.1
    · show hotelExclusive (updateSpace g pos f).board
      rw [this]
      exact h.2
  | some s =>
    obtain ⟨hsum, hhot⟩ := updateSpace_sums g pos f s hb
    obtain ⟨hn, hg⟩ := List.getElem?_eq_some.mp hb
    have hboard : (updateSpace g pos f).board = g.board.set pos (f s) := by
      simp only [updateSpace]
      rw [show g.board[pos]? = some s from hb]
    refine ⟨⟨?_, ?_⟩, ?_⟩
    · have h1 := h.1.1
      show housesOnBoard (updateSpace g pos f).board + g.housesAvailable = _
      rw [(hf s).1] at hsum
      omega
    · have h2 := h.1.2
      show hotelsOnBoard (updateSpace g pos f).board + g.hotelsAvailable = _
      rw [(hf s).2] at hhot
      omega
    · show hotelExclusive (updateSpace g pos f).board
      rw [hboard]
      refine hotelExclusive_set g.board pos (f s) h.2 ?_
      intro hh
      rw [(hf s).1]
      rw [(hf s).2] at hh
      exact h.2 s (hg ▸ List.getElem_mem hn) hh

/-- Facts available when `validate_build_house` succeeds. -/
theorem validate_build_house_sound (b : Board) (p : Player) (pos : Nat)
    (ha : Nat) (h : (validate_build_house b p pos ha).valid = true) :
    ∃ s, getSpace b pos = some s ∧ ha ≠ 0 ∧ s.hotel = false := by
  cases hg : getSpace b pos with
  | none => simp only [validate_build_house, hg] at h; exact (Bool.false_ne_true h).elim
  | some s =>
    simp only [validate_build_house, hg] at h
    refine ⟨s, rfl, ?_⟩
    by_cases hA : s.owner ≠ some p.id
    case pos => rw [if_pos hA] at h; simp at h
    rw [if_neg hA] at h
    by_cases hB : (!player_has_monopoly b p.id s.group) = true
    case pos => rw [if_pos hB] at h; simp at h
    rw [if_neg hB] at h
    by_cases hC : s.spaceType ≠ SpaceType.PROPERTY
    case pos => rw [if_pos hC] at h; simp at h
    rw [if_neg hC] at h
    by_cases hD : groupAnyMortgaged b s.group = true
    case pos => rw [if_pos hD] at h; simp at h
    rw [if_neg hD] at h
    by_cases hE : groupMinHouses b s.group s.houses < s.houses
    case pos => rw [if_pos hE] at h; simp at h
    rw [if_neg hE] at h
    by_cases hF : (s.hotel || decide (4 ≤ s.houses)) = true
    case pos => rw [if_pos hF] at h; simp at h
    rw [if_neg hF] at h
    by_cases hG : ha = 0
    case pos => rw [if_pos hG] at h; simp at h
    rw [if_neg hG] at h
    refine ⟨hG, ?_⟩
    simp only [Bool.or_eq_true] at hF
    push_neg at hF
    simpa using hF.1

/-- Facts available when `validate_build_hotel` succeeds. -/
theorem validate_build_hotel_sound (b : Board) (p : Player) (pos : Nat)
    (ho : Nat) (h : (validate_build_hotel b p pos ho).valid = true) :
    ∃ s, getSpace b pos = some s ∧ ho ≠ 0 ∧ s.hotel = false ∧
      s.houses = 4 := by
  cases hg : getSpace b pos with
  | none => simp only [validate_build_hotel, hg] at h; exact (Bool.false_ne_true h).elim
  | some s =>
    simp only [validate_build_hotel, hg] at h
    have hmem : s ∈ b := mem_of_getSpace b pos s hg
    refine ⟨s, rfl, ?_⟩
    by_cases hA : s.owner ≠ some p.id
    case pos => rw [if_pos hA] at h; simp at h
    rw [if_neg hA] at h
    by_cases hB : (!player_has_monopoly b p.id s.group) = true
    case pos => rw [if_pos hB] at h; simp at h
    rw [if_neg hB] at h
    by_cases hC : s.spaceType ≠ SpaceType.PROPERTY
    case pos => rw [if_pos hC] at h; simp at h
    rw [if_neg hC] at h
    by_cases hD : groupAnyMortgaged b s.group = true
    case pos => rw [if_pos hD] at h; simp at h
    rw [if_neg hD] at h
    by_cases hE : (!groupAllFourHouses b s.group) = true
    case pos => rw [if_pos hE] at h; simp at h
    rw [if_neg hE] at h
    by_cases hF : s.hotel = true
    case pos => rw [if_pos hF] at h; simp at h
    rw [if_neg hF] at h
    by_cases hG : ho = 0
    case pos => rw [if_pos hG] at h; simp at h
    rw [if_neg hG] at h
    have hfour : groupAllFourHouses b s.group = true := by
      simpa using hE
    have htype : s.spaceType = SpaceType.PROPERTY := by
      simpa using hC
    have hin : s ∈ groupSpaces b s.group := by
      simp only [groupSpaces, List.mem_filter]
      exact ⟨hmem, by simp [htype]⟩
    have h4 := (List.all_eq_true.mp hfour) s hin
    exact ⟨hG, by simpa using hF, by simpa using h4⟩

/-- Facts available when `validate_sell_building` succeeds. -/
theorem validate_sell_building_sound (b : Board) (p : Player) (pos : Nat)
    (ha : Nat) (h : (validate_sell_building b p pos ha).valid = true) :
    ∃ s, getSpace b pos = some s ∧
      (s.hotel = true → 4 ≤ ha) ∧ (s.hotel = false → 1 ≤ s.houses) := by
  cases hg : getSpace b pos with
  | none => simp only [validate_sell_building, hg] at h; exact (Bool.false_ne_true h).elim
  | some s =>
    simp only [validate_sell_building, hg] at h
    refine ⟨s, rfl, ?_⟩
    by_cases hA : s.owner ≠ some p.id
    case pos => rw [if_pos hA] at h; simp at h
    rw [if_neg hA] at h
    by_cases hB : s.spaceType ≠ SpaceType.PROPERTY
    case pos => rw [if_pos hB] at h; simp at h
    rw [if_neg hB] at h
    by_cases hC : (!s.hotel && decide (s.houses = 0)) = true
    case pos => rw [if_pos hC] at h; simp at h
    rw [if_neg hC] at h
    by_cases hD : (!s.hotel && decide (s.houses < groupMaxHouses b s.group))
        = true
    case pos => rw [if_pos hD] at h; simp at h
    rw [if_neg hD] at h
    by_cases hE : (s.hotel && decide (ha < 4)) = true
    case pos => rw [if_pos hE] at h; simp at h
    rw [if_neg hE] at h
    constructor
    · intro hh
      simp only [Bool.and_eq_true, hh, true_and, decide_eq_true_eq] at hE
      omega
    · intro hh
      simp only [Bool.and_eq_true, hh, Bool.not_false, true_and,
        decide_eq_true_eq] at hC
      omega

/-- Changing only owners along a list of positions leaves the building
sums and the hotel/houses discipline untouched. -/
theorem transferProps_preserve (ps : List Nat) (b : Board) (o : Option Nat) :
    housesOnBoard (transferProps b ps o) = housesOnBoard b ∧
    hotelsOnBoard (transferProps b ps o) = hotelsOnBoard b ∧
    (hotelExclusive b → hotelExclusive (transferProps b ps o)) := by
  induction ps generalizing b with
  | nil => exact ⟨rfl, rfl, fun h => h⟩
  | cons pos ps ih =>
    cases hb : b[pos]? with
    | none =>
      have hstep : transferProps b (pos :: ps) o = transferProps b ps o := by
        simp [transferProps, hb]
      rw [hstep]
      exact ih b
    | some s =>
      have hstep : transferProps b (pos :: ps) o =
          transferProps (b.set pos { s with owner := o }) ps o := by
        simp [transferProps, hb]
      obtain ⟨hn, hg⟩ := List.getElem?_eq_some.mp hb
      have h1 := sum_map_set Space.houses b pos { s with owner := o } hn
      have h2 := sum_map_set (fun t => if t.hotel then 1 else 0) b pos
        { s with owner := o } hn
      have hset1 : housesOnBoard (b.set pos { s with owner := o }) =
          housesOnBoard b := by
        simp only [housesOnBoard]
        rw [hg] at h1
        simpa using h1
      have hset2 : hotelsOnBoard (b.set pos { s with owner := o }) =
          hotelsOnBoard b := by
        simp only [hotelsOnBoard]
        rw [hg] at h2
        simpa using h2
      have hmem : s ∈ b := hg ▸ List.getElem_mem hn
      obtain ⟨ih1, ih2, ih3⟩ := ih (b.set pos { s with owner := o })
      rw [hstep]
      refine ⟨ih1.trans hset1, ih2.trans hset2, fun hexcl => ?_⟩
      refine ih3 (hotelExclusive_set b pos _ hexcl ?_)
      intro hh
      exact hexcl s hmem hh

/-- Building sums unfold over a cons cell. -/
theorem housesOnBoard_cons (s : Space) (bs : Board) :
    housesOnBoard (s :: bs) = s.houses + housesOnBoard bs := by
  simp [housesOnBoard]

/-- Hotel counts unfold over a cons cell. -/
theorem hotelsOnBoard_cons (s : Space) (bs : Board) :
    hotelsOnBoard (s :: bs) =
      (if s.hotel then 1 else 0) + hotelsOnBoard bs := by
  simp [hotelsOnBoard]

/-- Per-owner house counts unfold over a cons cell. -/
theorem ownedHouses_cons (s : Space) (bs : Board) (pid : Nat) :
    ownedHouses (s :: bs) pid =
      (if s.owner == some pid then s.houses else 0) + ownedHouses bs pid := by
  by_cases h : (s.owner == some pid) = true <;>
    simp [ownedHouses, List.filter_cons, h]

/-- Per-owner hotel counts unfold over a cons cell. -/
theorem ownedHotels_cons (s : Space) (bs : Board) (pid : Nat) :
    ownedHotels (s :: bs) pid =
      (if s.owner == some pid then (if s.hotel then 1 else 0) else 0) +
        ownedHotels bs pid := by
  by_cases h : (s.owner == some pid) = true <;>
    simp [ownedHotels, List.filter_cons, h]

/-- Clearing the bankrupt player's spaces gives back exactly the houses
and hotels they had standing. -/
theorem bankrupt_clear_sums (b : Board) (pid : Nat) :
    housesOnBoard (b.map (fun s =>
        if s.owner == some pid then
          { s with owner := none, mortgaged := false,
                   houses := 0, hotel := false }
        else s)) + ownedHouses b pid = housesOnBoard b ∧
    hotelsOnBoard (b.map (fun s =>
        if s.owner == some pid then
          { s with owner := none, mortgaged := false,
                   houses := 0, hotel := false }
        else s)) + ownedHotels b pid = hotelsOnBoard b := by
  induction b with
  | nil => simp [housesOnBoard, hotelsOnBoard, ownedHouses, ownedHotels]
  | cons s bs ih =>
    obtain ⟨ih1, ih2⟩ := ih
    rw [List.map_cons]
    constructor
    · rw [housesOnBoard_cons, housesOnBoard_cons, ownedHouses_cons]
      by_cases h : (s.owner == some pid) = true <;>
        simp [h] at ih1 ⊢ <;> omega
    · rw [hotelsOnBoard_cons, hotelsOnBoard_cons, ownedHotels_cons]
      by_cases h : (s.owner == some pid) = true <;>
        simp [h] at ih2 ⊢ <;> omega

/-- Resolving a landing (and any card chain it triggers) never touches
the board or the bank's building inventory: it only moves money,
positions, player states, decks, and the phase. -/
theorem landing_preserve (fuel : Nat) :
    (∀ sh g pid t,
      (resolveLanding sh fuel g pid t).board = g.board ∧
      (resolveLanding sh fuel g pid t).housesAvailable = g.housesAvailable ∧
      (resolveLanding sh fuel g pid t).hotelsAvailable = g.hotelsAvailable) ∧
    (∀ sh g c pid t,
      (applyCardEffect sh fuel g c pid t).board = g.board ∧
      (applyCardEffect sh fuel g c pid t).housesAvailable =
        g.housesAvailable ∧
      (applyCardEffect sh fuel g c pid t).hotelsAvailable =
        g.hotelsAvailable) := by
  induction fuel with
  | zero =>
    constructor <;> intros <;> exact ⟨rfl, rfl, rfl⟩
  | succ n ih =>
    constructor
    · intro sh g pid t
      simp only [resolveLanding]
      repeat' split
      all_goals try exact ⟨rfl, rfl, rfl⟩
      all_goals
        exact ⟨(ih.2 sh _ _ pid t).1.trans (setDeck_fields _ _ _).1,
          (ih.2 sh _ _ pid t).2.1.trans (setDeck_fields _ _ _).2.1,
          (ih.2 sh _ _ pid t).2.2.trans (setDeck_fields _ _ _).2.2⟩
    · intro sh g c pid t
      simp only [applyCardEffect]
      repeat' split
      all_goals try exact ⟨rfl, rfl, rfl⟩
      all_goals
        exact ⟨(ih.1 sh _ pid t).1, (ih.1 sh _ pid t).2.1,
          (ih.1 sh _ pid t).2.2⟩

/-- Landing resolution preserves the full invariant. -/
theorem fullInv_resolve (sh : List Card → List Card) (fuel : Nat)
    (g : Game) (pid t : Nat) (h : fullInv g) :
    fullInv (resolveLanding sh fuel g pid t) := by
  obtain ⟨hb, hh, hho⟩ := (landing_preserve fuel).1 sh g pid t
  refine ⟨⟨?_, ?_⟩, ?_⟩
  · rw [hb, hh]; exact h.1.1
  · rw [hb, hho]; exact h.1.2
  · rw [hb]; exact h.2

/-- Building a house moves one house from the bank onto the board. -/
theorem fullInv_build_house (g : Game) (pos : Nat) (s : Space)
    (hs : getSpace g.board pos = some s) (hha : g.housesAvailable ≠ 0)
    (hhot : s.hotel = false) (h : fullInv g) :
    fullInv { updateSpace g pos (fun t => { t with houses := t.houses + 1 })
      with housesAvailable := g.housesAvailable - 1 } := by
  have hsum : housesOnBoard
        (updateSpace g pos (fun t => { t with houses := t.houses + 1 })).board
        + s.houses = housesOnBoard g.board + (s.houses + 1) :=
    (updateSpace_sums g pos _ s hs).1
  have hhotsum : hotelsOnBoard
        (updateSpace g pos (fun t => { t with houses := t.houses + 1 })).board
        + (if s.hotel then 1 else 0) =
      hotelsOnBoard g.board + (if s.hotel then 1 else 0) :=
    (updateSpace_sums g pos _ s hs).2
  have hboard : (updateSpace g pos
        (fun t => { t with houses := t.houses + 1 })).board =
      g.board.set pos { s with houses := s.houses + 1 } := by
    simp only [updateSpace]
    rw [show g.board[pos]? = some s from hs]
  have h11 := h.1.1
  have h12 := h.1.2
  refine ⟨⟨?_, ?_⟩, ?_⟩
  · show housesOnBoard (updateSpace g pos _).board +
      (g.housesAvailable - 1) = TOTAL_HOUSES
    omega
  · show hotelsOnBoard (updateSpace g pos _).board +
      g.hotelsAvailable = TOTAL_HOTELS
    omega
  · show hotelExclusive (updateSpace g pos _).board
    rw [hboard]
    refine hotelExclusive_set _ _ _ h.2 ?_
    intro hh
    exact absurd (show s.hotel = true from hh) (by simp [hhot])

/-- Building a hotel consumes one bank hotel and returns the four
houses standing on the target. -/
theorem fullInv_build_hotel (g : Game) (pos : Nat) (s : Space)
    (hs : getSpace g.board pos = some s) (hho : g.hotelsAvailable ≠ 0)
    (hhot : s.hotel = false) (h4 : s.houses = 4) (h : fullInv g) :
    fullInv { updateSpace g pos (fun t => { t with houses := 0, hotel := true })
      with
      housesAvailable := g.housesAvailable + 4
      hotelsAvailable := g.hotelsAvailable - 1 } := by
  have hsum : housesOnBoard
        (updateSpace g pos (fun t => { t with houses := 0, hotel := true })).board
        + s.houses = housesOnBoard g.board + 0 :=
    (updateSpace_sums g pos _ s hs).1
  have hhotsum : hotelsOnBoard
        (updateSpace g pos (fun t => { t with houses := 0, hotel := true })).board
        + (if s.hotel then 1 else 0) = hotelsOnBoard g.board + 1 :=
    (updateSpace_sums g pos _ s hs).2
  rw [hhot] at hhotsum
  simp only [if_false, Bool.false_eq_true] at hhotsum
  have hboard : (updateSpace g pos
        (fun t => { t with houses := 0, hotel := true })).board =
      g.board.set pos { s with houses := 0, hotel := true } := by
    simp only [updateSpace]
    rw [show g.board[pos]? = some s from hs]
  have h11 := h.1.1
  have h12 := h.1.2
  refine ⟨⟨?_, ?_⟩, ?_⟩
  · show housesOnBoard (updateSpace g pos _).board +
      (g.housesAvailable + 4) = TOTAL_HOUSES
    omega
  · show hotelsOnBoard (updateSpace g pos _).board +
      (g.hotelsAvailable - 1) = TOTAL_HOTELS
    omega
  · show hotelExclusive (updateSpace g pos _).board
    rw [hboard]
    exact hotelExclusive_set _ _ _ h.2 (fun _ => rfl)

/-- Selling a house returns one house to the bank. -/
theorem fullInv_sell_house (g : Game) (pos : Nat) (s : Space)
    (hs : getSpace g.board pos = some s) (hh1 : 1 ≤ s.houses)
    (hhot : s.hotel = false) (h : fullInv g) :
    fullInv { updateSpace g pos (fun t => { t with houses := t.houses - 1 })
      with housesAvailable := g.housesAvailable + 1 } := by
  have hsum : housesOnBoard
        (updateSpace g pos (fun t => { t with houses := t.houses - 1 })).board
        + s.houses = housesOnBoard g.board + (s.houses - 1) :=
    (updateSpace_sums g pos _ s hs).1
  have hhotsum : hotelsOnBoard
        (updateSpace g pos (fun t => { t with houses := t.houses - 1 })).board
        + (if s.hotel then 1 else 0) =
      hotelsOnBoard g.board + (if s.hotel then 1 else 0) :=
    (updateSpace_sums g pos _ s hs).2
  have hboard : (updateSpace g pos
        (fun t => { t with houses := t.houses - 1 })).board =
      g.board.set pos { s with houses := s.houses - 1 } := by
    simp only [updateSpace]
    rw [show g.board[pos]? = some s from hs]
  have h11 := h.1.1
  have h12 := h.1.2
  refine ⟨⟨?_, ?_⟩, ?_⟩
  · show housesOnBoard (updateSpace g pos _).board +
      (g.housesAvailable + 1) = TOTAL_HOUSES
    omega
  · show hotelsOnBoard (updateSpace g pos _).board +
      g.hotelsAvailable = TOTAL_HOTELS
    omega
  · show hotelExclusive (updateSpace g pos _).board
    rw [hboard]
    refine hotelExclusive_set _ _ _ h.2 ?_
    intro hh
    exact absurd (show s.hotel = true from hh) (by simp [hhot])

/-- Downgrading a hotel returns it to the bank in exchange for four
bank houses. -/
theorem fullInv_sell_hotel (g : Game) (pos : Nat) (s : Space)
    (hs : getSpace g.board pos = some s) (hha : 4 ≤ g.housesAvailable)
    (hhot : s.hotel = true) (h : fullInv g) :
    fullInv { updateSpace g pos (fun t => { t with houses := 4, hotel := false })
      with
      housesAvailable := g.housesAvailable - 4
      hotelsAvailable := g.hotelsAvailable + 1 } := by
  have h0 : s.houses = 0 := h.2 s (mem_of_getSpace g.board pos s hs) hhot
  have hsum : housesOnBoard
        (updateSpace g pos (fun t => { t with houses := 4, hotel := false })).board
        + s.houses = housesOnBoard g.board + 4 :=
    (updateSpace_sums g pos _ s hs).1
  have hhotsum : hotelsOnBoard
        (updateSpace g pos (fun t => { t with houses := 4, hotel := false })).board
        + (if s.hotel then 1 else 0) = hotelsOnBoard g.board + 0 :=
    (updateSpace_sums g pos _ s hs).2
  rw [hhot] at hhotsum
  simp only [if_true] at hhotsum
  have hboard : (updateSpace g pos
        (fun t => { t with houses := 4, hotel := false })).board =
      g.board.set pos { s with houses := 4, hotel := false } := by
    simp only [updateSpace]
    rw [show g.board[pos]? = some s from hs]
  have h11 := h.1.1
  have h12 := h.1.2
  refine ⟨⟨?_, ?_⟩, ?_⟩
  · show housesOnBoard (updateSpace g pos _).board +
      (g.housesAvailable - 4) = TOTAL_HOUSES
    omega
  · show hotelsOnBoard (updateSpace g pos _).board +
      (g.hotelsAvailable + 1) = TOTAL_HOTELS
    omega
  · show hotelExclusive (updateSpace g pos _).board
    rw [hboard]
    refine hotelExclusive_set _ _ _ h.2 ?_
    intro hh
    exact absurd (show false = true from hh) (by simp)

/-- `finishBankruptcy` preserves the full invariant. -/
theorem fullInv_finishBankruptcy (g : Game) (pid : Nat) (h : fullInv g) :
    fullInv (finishBankruptcy g pid) := by
  obtain ⟨hp, hb, hh, hho⟩ := finishBankruptcy_preserve g pid
  refine ⟨⟨?_, ?_⟩, ?_⟩
  · rw [hb, hh]; exact h.1.1
  · rw [hb, hho]; exact h.1.2
  · rw [hb]; exact h.2

/-- Liquidating a bankrupt player's buildings back to the bank
preserves the full invariant. -/
theorem fullInv_bankrupt_core (g : Game) (pid : Nat) (h : fullInv g) :
    fullInv { g with
      board := g.board.map (fun s =>
        if s.owner == some pid then
          { s with owner := none, mortgaged := false,
                   houses := 0, hotel := false }
        else s)
      housesAvailable := g.housesAvailable + ownedHouses g.board pid
      hotelsAvailable := g.hotelsAvailable + ownedHotels g.board pid } := by
  obtain ⟨c1, c2⟩ := bankrupt_clear_sums g.board pid
  have h11 := h.1.1
  have h12 := h.1.2
  refine ⟨⟨?_, ?_⟩, ?_⟩
  · show housesOnBoard (g.board.map _) +
      (g.housesAvailable + ownedHouses g.board pid) = TOTAL_HOUSES
    omega
  · show hotelsOnBoard (g.board.map _) +
      (g.hotelsAvailable + ownedHotels g.board pid) = TOTAL_HOTELS
    omega
  · show hotelExclusive (g.board.map _)
    intro s' hs' hh
    obtain ⟨s, hsmem, rfl⟩ := List.mem_map.mp hs'
    by_cases hc : (s.owner == some pid) = true
    · simp [hc] at hh
    · have hh' : s.hotel = true := by simpa [hc] using hh
      have := h.2 s hsmem hh'
      simpa [hc] using this

/-- Exchanging ownership of building-free properties in a trade
preserves the full invariant. -/
theorem fullInv_trade (g : Game) (op rp : List Nat) (to_id from_id : Nat)
    (h : fullInv g) :
    fullInv { g with board := transferProps
                                (transferProps g.board op (some to_id)) rp
                                (some from_id) } := by
  obtain ⟨a1, a2, a3⟩ := transferProps_preserve op g.board (some to_id)
  obtain ⟨b1, b2, b3⟩ := transferProps_preserve rp
    (transferProps g.board op (some to_id)) (some from_id)
  refine ⟨⟨?_, ?_⟩, ?_⟩
  · show housesOnBoard (transferProps _ rp _) + g.housesAvailable = _
    rw [b1, a1]; exact h.1.1
  · show hotelsOnBoard (transferProps _ rp _) + g.hotelsAvailable = _
    rw [b2, a2]; exact h.1.2
  · show hotelExclusive (transferProps _ rp _)
    exact b3 (a3 h.2)

/-- Mapping a building-preserving function over the board keeps the
sums. -/
theorem sums_map_keep (b : Board) (f : Space → Space)
    (hh : ∀ s, (f s).houses = s.houses)
    (hho : ∀ s, (f s).hotel = s.hotel) :
    housesOnBoard (b.map f) = housesOnBoard b ∧
    hotelsOnBoard (b.map f) = hotelsOnBoard b := by
  induction b with
  | nil => exact ⟨rfl, rfl⟩
  | cons s bs ih =>
    rw [List.map_cons, housesOnBoard_cons, housesOnBoard_cons,
      hotelsOnBoard_cons, hotelsOnBoard_cons, hh s, hho s]
    omega

/-- Re-owning a bankrupt player's spaces to the creditor preserves the
full invariant. -/
theorem fullInv_map_owner (g : Game) (pid cid : Nat) (h : fullInv g) :
    fullInv { g with board := g.board.map (fun s =>
        if s.owner == some pid then { s with owner := some cid }
        else s) } := by
  obtain ⟨m1, m2⟩ := sums_map_keep g.board
    (fun s => if s.owner == some pid then { s with owner := some cid } else s)
    (fun s => by by_cases hc : (s.owner == some pid) = true <;> simp [hc])
    (fun s => by by_cases hc : (s.owner == some pid) = true <;> simp [hc])
  refine ⟨⟨?_, ?_⟩, ?_⟩
  · show housesOnBoard (g.board.map _) + g.housesAvailable = _
    rw [m1]; exact h.1.1
  · show hotelsOnBoard (g.board.map _) + g.hotelsAvailable = _
    rw [m2]; exact h.1.2
  · show hotelExclusive (g.board.map _)
    intro s' hs' hhot
    obtain ⟨s, hsmem, rfl⟩ := List.mem_map.mp hs'
    by_cases hc : (s.owner == some pid) = true
    · have hhot' : s.hotel = true := by simpa [hc] using hhot
      have := h.2 s hsmem hhot'
      simpa [hc] using this
    · have hhot' : s.hotel = true := by simpa [hc] using hhot
      have := h.2 s hsmem hhot'
      simpa [hc] using this

/-- Every public action preserves the bank-inventory balance and the
hotel/houses discipline. -/
theorem preserve_full (sh : List Card → List Card) (a : Action) (g : Game)
    (h : fullInv g) : fullInv (applyAction sh a g).1 := by
  cases a with
  | roll_dice pid d1 d2 =>
    simp only [applyAction, roll_dice]
    repeat' split
    all_goals try exact h
    all_goals exact fullInv_resolve sh _ _ _ _ h
  | buy_property pid =>
    simp only [applyAction, buy_property]
    repeat' split
    all_goals try exact h
    all_goals exact fullInv_updateSpace g _ _ (fun s => ⟨rfl, rfl⟩) h
  | decline_property pid =>
    simp only [applyAction, decline_property]
    repeat' split
    all_goals exact h
  | pay_bail pid =>
    simp only [applyAction, pay_bail]
    repeat' split
    all_goals exact h
  | use_jail_card pid =>
    simp only [applyAction, use_jail_card]
    repeat' split
    all_goals exact h
  | build_house pid pos =>
    simp only [applyAction, build_house]
    repeat' split
    all_goals try exact h
    · rename_i hv x s0 hsp
      obtain ⟨s, hs, hha, hhot⟩ :=
        validate_build_house_sound g.board _ pos g.housesAvailable hv
      exact fullInv_build_house g pos s hs hha hhot h
    · rename_i hv x hsp
      obtain ⟨s, hs, _, _⟩ :=
        validate_build_house_sound g.board _ pos g.housesAvailable hv
      rw [hs] at hsp
      exact absurd hsp (by simp)
  | build_hotel pid pos =>
    simp only [applyAction, build_hotel]
    repeat' split
    all_goals try exact h
    · rename_i hv x s0 hsp
      obtain ⟨s, hs, hho, hhot, h4⟩ :=
        validate_build_hotel_sound g.board _ pos g.hotelsAvailable hv
      exact fullInv_build_hotel g pos s hs hho hhot h4 h
    · rename_i hv x hsp
      obtain ⟨s, hs, _, _, _⟩ :=
        validate_build_hotel_sound g.board _ pos g.hotelsAvailable hv
      rw [hs] at hsp
      exact absurd hsp (by simp)
  | sell_building pid pos =>
    simp only [applyAction, sell_building]
    repeat' split
    all_goals try exact h
    all_goals rename_i hv x s hs hcond
    all_goals
      obtain ⟨s', hs', hsell1, hsell2⟩ :=
        validate_sell_building_sound g.board _ pos g.housesAvailable hv
    all_goals
      rw [hs'] at hs
    all_goals
      injection hs with hss
    all_goals subst hss
    · exact fullInv_sell_hotel g pos s' hs' (hsell1 hcond) hcond h
    · have hhot : s'.hotel = false := by simpa using hcond
      exact fullInv_sell_house g pos s' hs' (hsell2 hhot) hhot h
  | mortgage_property pid pos =>
    simp only [applyAction, mortgage_property]
    repeat' split
    all_goals try exact h
    all_goals exact fullInv_updateSpace g _ _ (fun s => ⟨rfl, rfl⟩) h
  | unmortgage_property pid pos =>
    simp only [applyAction, unmortgage_property]
    repeat' split
    all_goals try exact h
    all_goals exact fullInv_updateSpace g _ _ (fun s => ⟨rfl, rfl⟩) h
  | declare_bankruptcy pid c =>
    simp only [applyAction, declare_bankruptcy]
    repeat' split
    all_goals try exact h
    · exact fullInv_finishBankruptcy _ pid (fullInv_bankrupt_core g pid h)
    · show fullInv (finishBankruptcy _ _)
      refine fullInv_finishBankruptcy _ _ ?_
      exact fullInv_map_owner g pid _ h
  | trade from_id to_id om rm op rp oc rc =>
    simp only [applyAction, trade]
    repeat' split
    all_goals try exact h
    all_goals exact fullInv_trade g op rp to_id from_id h
  | end_turn pid =>
    simp only [applyAction, end_turn]
    repeat' split
    all_goals exact h

/-- C2: in every game state reachable from a fresh game (clean board,
full bank) by any sequence of public actions, houses standing on the
board plus the bank's `housesAvailable` equal the fixed total house
supply, and hotels on board plus `hotelsAvailable` equal the fixed
total hotel supply. -/
theorem claim_C2 (g0 g : Game) (hclean : cleanBoard g0.board = true)
    (hH : g0.housesAvailable = TOTAL_HOUSES)
    (hHo : g0.hotelsAvailable = TOTAL_HOTELS)
    (hr : Reachable g0 g) :
    housesOnBoard g.board + g.housesAvailable = TOTAL_HOUSES ∧
    hotelsOnBoard g.board + g.hotelsAvailable = TOTAL_HOTELS := by
  obtain ⟨z1, z2, z3⟩ := cleanBoard_sums g0.board hclean
  have hinv : fullInv g := by
    induction hr with
    | refl => exact ⟨⟨by omega, by omega⟩, z3⟩
    | step sh a hr ih => exact preserve_full sh a _ ih
  exact hinv.1

/-- Witness for C2: the sample fresh game satisfies the balance, via
the reachability of the state after one `buy_property` attempt. -/
theorem claim_C2_witness :
    housesOnBoard (applyAction id (Action.buy_property 0) sampleGame).1.board +
      (applyAction id (Action.buy_property 0) sampleGame).1.housesAvailable =
      TOTAL_HOUSES ∧
    hotelsOnBoard (applyAction id (Action.buy_property 0) sampleGame).1.board +
      (applyAction id (Action.buy_property 0) sampleGame).1.hotelsAvailable =
      TOTAL_HOTELS :=
  claim_C2 sampleGame _ (by decide) rfl rfl
    (Reachable.step id (Action.buy_property 0) Reachable.refl)

end Monopoly
